import Mathlib

/-!
Verification development for the-palette, a perceptual color palette
generator.  The TypeScript sources under `src/lib` are shallowly embedded
here over `ℚ`: JavaScript numbers are modelled as exact rationals, the
`%` operator as truncated remainder, `Math.floor`/`Math.round` as floor
and half-up rounding.  The third-party culori color library (OKLCH/sRGB
conversions, gamut clamping) is modelled from its documented behaviour and
the spec: exact rational matrix arithmetic for the OKLab transforms, and
rational approximations (with floating-point style rounding) for the
transcendental pieces (cube root, square root, sine/cosine, arctangent).
Every modelled definition says so in its doc comment.
-/

namespace Palette

/-- Kernel-friendly floor of a rational: `q.num / q.den` with Euclidean
integer division. -/
def ratFloor (q : ℚ) : ℤ := q.num / q.den

theorem ratFloor_eq (q : ℚ) : ratFloor q = ⌊q⌋ := by
  rw [ratFloor, Rat.floor_def]

/-- Truncation toward zero, the behaviour of JavaScript `Math.trunc` and of
the integer part used by the `%` operator. -/
def jsTrunc (x : ℚ) : ℤ := if 0 ≤ x then ratFloor x else -ratFloor (-x)

theorem jsTrunc_of_nonneg {x : ℚ} (hx : 0 ≤ x) : jsTrunc x = ⌊x⌋ := by
  rw [jsTrunc, if_pos hx, ratFloor_eq]

theorem jsTrunc_of_neg {x : ℚ} (hx : ¬ 0 ≤ x) : jsTrunc x = ⌈x⌉ := by
  rw [jsTrunc, if_neg hx, ratFloor_eq, Int.floor_neg, neg_neg]

theorem jsTrunc_lt (x : ℚ) : (jsTrunc x : ℚ) < x + 1 := by
  by_cases hx : 0 ≤ x
  · rw [jsTrunc_of_nonneg hx]
    exact lt_of_le_of_lt (Int.floor_le x) (by linarith)
  · rw [jsTrunc_of_neg hx]
    exact Int.ceil_lt_add_one x

theorem lt_jsTrunc (x : ℚ) : x - 1 < (jsTrunc x : ℚ) := by
  by_cases hx : 0 ≤ x
  · rw [jsTrunc_of_nonneg hx]
    linarith [Int.lt_floor_add_one x]
  · rw [jsTrunc_of_neg hx]
    linarith [Int.le_ceil x]

/-- JavaScript remainder operator `a % b`: `a - b * trunc(a / b)`, which
takes the sign of the dividend. -/
def jsMod (a b : ℚ) : ℚ := a - b * (jsTrunc (a / b) : ℚ)

theorem jsMod_of_nonneg (a : ℚ) {b : ℚ} (ha : 0 ≤ a) (hb : 0 < b) :
    jsMod a b = b * Int.fract (a / b) := by
  rw [jsMod, jsTrunc_of_nonneg (div_nonneg ha hb.le), Int.fract, mul_sub,
    mul_div_cancel₀ a hb.ne.symm]

/-- JavaScript `Math.round`: half-up rounding, `⌊x + 1/2⌋`. -/
def jsRound (x : ℚ) : ℤ := ratFloor (x + 1/2)

/-- Rounding of intermediate results to 12 decimal digits.  Models the
finite precision of JavaScript floating point in the iterative
approximations below (it also keeps the exact rationals small). -/
def truncPrec (x : ℚ) : ℚ := (ratFloor (x * 10^12) : ℚ) / 10^12

/-- Embedding of `normalizeHue` from src/lib/color-utils.ts:
`((h % 360) + 360) % 360`. -/
def normalizeHue (h : ℚ) : ℚ := jsMod (jsMod h 360 + 360) 360

theorem normalizeHue_eq_fract (h : ℚ) :
    normalizeHue h = 360 * Int.fract (h / 360) := by
  have h360 : (0:ℚ) < 360 := by norm_num
  have htb₁ := jsTrunc_lt (h / 360)
  have hinner : jsMod h 360 = h - 360 * (jsTrunc (h / 360) : ℚ) := rfl
  have hA : (0:ℚ) ≤ jsMod h 360 + 360 := by
    rw [hinner]
    nlinarith
  rw [normalizeHue, jsMod_of_nonneg _ hA h360, hinner]
  have harg : (h - 360 * (jsTrunc (h / 360) : ℚ) + 360) / 360 =
      h / 360 + ((1 - jsTrunc (h / 360) : ℤ) : ℚ) := by
    push_cast
    field_simp
    ring
  rw [harg, Int.fract_add_int]

theorem normalizeHue_nonneg (h : ℚ) : 0 ≤ normalizeHue h := by
  rw [normalizeHue_eq_fract]
  have := Int.fract_nonneg (h / 360)
  linarith

theorem normalizeHue_lt (h : ℚ) : normalizeHue h < 360 := by
  rw [normalizeHue_eq_fract]
  have := Int.fract_lt_one (h / 360)
  linarith

theorem normalizeHue_int_shift (h : ℚ) (k : ℤ) :
    normalizeHue (h + 360 * k) = normalizeHue h := by
  rw [normalizeHue_eq_fract, normalizeHue_eq_fract]
  have : (h + 360 * k) / 360 = h / 360 + (k : ℚ) := by
    field_simp
    ring
  rw [this, Int.fract_add_int]

theorem normalizeHue_of_mem (h : ℚ) (h₀ : 0 ≤ h) (h₁ : h < 360) :
    normalizeHue h = h := by
  rw [normalizeHue_eq_fract, Int.fract_eq_self.mpr]
  · field_simp
  · constructor
    · positivity
    · rw [div_lt_one (by norm_num : (0:ℚ) < 360)]
      exact h₁

theorem normalizeHue_add_360 (h : ℚ) :
    normalizeHue (h + 360) = normalizeHue h := by
  have := normalizeHue_int_shift h 1
  simpa using this

/-! ### Modelled transcendental functions

The culori library evaluates `Math.sin`, `Math.cos`, `Math.cbrt`,
`Math.sqrt`, `Math.atan2` and the sRGB transfer curve in double precision.
Those are not exactly representable over `ℚ`; the definitions below are
rational models: truncated power series after range reduction for
sine/cosine (exact at hue angles 0° and 180°, which is where the proofs
evaluate them), Newton iteration with floating-point style rounding for
roots, and a coarse octant-based model for the arctangent.  They are used
only for the numeric fields of concrete colors, never for the load-bearing
branch structure of the embedded functions. -/

/-- Rational approximation of pi, used by the modelled trigonometry. -/
def piQ : ℚ := 3141592653589793 / 10^15

/-- Modelled from the spec: truncated Maclaurin series for cosine on
[0, pi/2]; exact at 0. -/
def cosq (x : ℚ) : ℚ := truncPrec (1 - x^2/2 + x^4/24 - x^6/720 + x^8/40320)

/-- Modelled from the spec: truncated Maclaurin series for sine on
[0, pi/2]; exact at 0. -/
def sinq (x : ℚ) : ℚ := truncPrec (x - x^3/6 + x^5/120 - x^7/5040)

/-- Modelled from the spec: cosine of an angle in degrees, by quadrant
range reduction; exact at multiples of 180°. -/
def cosdQ (h : ℚ) : ℚ :=
  let x := normalizeHue h
  if x ≤ 90 then cosq (x * piQ / 180)
  else if x ≤ 180 then - cosq ((180 - x) * piQ / 180)
  else if x ≤ 270 then - cosq ((x - 180) * piQ / 180)
  else cosq ((360 - x) * piQ / 180)

/-- Modelled from the spec: sine of an angle in degrees, by quadrant
range reduction; exact at multiples of 180°. -/
def sindQ (h : ℚ) : ℚ :=
  let x := normalizeHue h
  if x ≤ 90 then sinq (x * piQ / 180)
  else if x ≤ 180 then sinq ((180 - x) * piQ / 180)
  else if x ≤ 270 then - sinq ((x - 180) * piQ / 180)
  else - sinq ((360 - x) * piQ / 180)

/-- One Newton step for the cube root of `x`, rounded. -/
def cbrtStep (x y : ℚ) : ℚ :=
  max (truncPrec ((2 * y + x / y^2) / 3)) (1 / 10^12)

/-- Newton iteration for the cube root. -/
def cbrtIter (x : ℚ) : ℕ → ℚ → ℚ
  | 0, y => y
  | n + 1, y => cbrtIter x n (cbrtStep x y)

/-- Modelled from the spec: `Math.cbrt` for the nonnegative arguments the
OKLab transform produces; exact at 0 and 1. -/
def cbrtQ (x : ℚ) : ℚ := if x ≤ 0 then 0 else cbrtIter x 10 1

/-- One Newton step for the square root of `x`, rounded. -/
def sqrtStep (x y : ℚ) : ℚ :=
  max (truncPrec ((y + x / y) / 2)) (1 / 10^12)

/-- Newton iteration for the square root. -/
def sqrtIter (x : ℚ) : ℕ → ℚ → ℚ
  | 0, y => y
  | n + 1, y => sqrtIter x n (sqrtStep x y)

/-- Modelled from the spec: `Math.sqrt` for nonnegative arguments; exact
at 0 and 1. -/
def sqrtQ (x : ℚ) : ℚ := if x ≤ 0 then 0 else sqrtIter x 20 1

/-- Modelled from the spec: arctangent in degrees on [-1, 1], coarse
linear model, exact at -1, 0 and 1. -/
def atanDegQ (t : ℚ) : ℚ := truncPrec (45 * t)

/-- Modelled from the spec: `Math.atan2` in degrees by octant reduction.
Only the hue of near-achromatic colors flows through it in this
development, where its coarseness is immaterial. -/
def atan2DegQ (b a : ℚ) : ℚ :=
  if a = 0 ∧ b = 0 then 0
  else if |b| ≤ |a| then
    (if 0 < a then atanDegQ (b / a)
     else if 0 ≤ b then atanDegQ (b / a) + 180 else atanDegQ (b / a) - 180)
  else
    (if 0 < b then 90 - atanDegQ (a / b) else -90 - atanDegQ (a / b))

/-! ### Color data model

`ColorResult` from src/lib/color-utils.ts.  The three CSS-formatted string
fields (`cssOklch`, `cssRgb`, `cssHsl`) are derived `toFixed` renderings of
the numeric fields and are not modelled; the `hex` field is. -/

/-- OKLCH triple as stored in a `ColorResult`. -/
structure OklchT where
  l : ℚ
  c : ℚ
  h : ℚ
deriving DecidableEq, Repr

/-- HSL triple as stored in a `ColorResult` (s and l in percent). -/
structure HslT where
  h : ℚ
  s : ℚ
  l : ℚ
deriving DecidableEq, Repr

/-- Rounded 8-bit RGB triple as stored in a `ColorResult`. -/
structure RgbT where
  r : ℤ
  g : ℤ
  b : ℤ
deriving DecidableEq, Repr

/-- Linear (or gamma) RGB triple with rational channels in [0, 1]. -/
structure Rgb01 where
  r : ℚ
  g : ℚ
  b : ℚ
deriving DecidableEq, Repr

/-- Embedding of the `ColorResult` record from src/lib/color-utils.ts
(the three derived CSS strings omitted). -/
structure ColorResult where
  hex : String
  rgb : RgbT
  oklch : OklchT
  hsl : HslT
deriving DecidableEq, Repr

/-- Default color used where the embedding needs a list fallback value. -/
def defaultCR : ColorResult :=
  { hex := "", rgb := ⟨0, 0, 0⟩, oklch := ⟨0, 0, 0⟩, hsl := ⟨0, 0, 0⟩ }

/-! ### Modelled culori conversions -/

/-- Modelled from the spec: the OKLab to linear sRGB transform (Ottosson
coefficients, as shipped by culori): cone response, cube, then the linear
map to RGB.  Exact rational arithmetic. -/
def oklabToLrgb (L a b : ℚ) : Rgb01 :=
  let l₀ := L + (3963377774 : ℚ)/10^10 * a + (2158037573 : ℚ)/10^10 * b
  let m₀ := L - (1055613458 : ℚ)/10^10 * a - (638541728 : ℚ)/10^10 * b
  let s₀ := L - (894841775 : ℚ)/10^10 * a - (12914855480 : ℚ)/10^10 * b
  let l := l₀^3
  let m := m₀^3
  let s := s₀^3
  { r := truncPrec ((40767416621 : ℚ)/10^10 * l - (33077115913 : ℚ)/10^10 * m + (2309699292 : ℚ)/10^10 * s)
    g := truncPrec (-(12684380046 : ℚ)/10^10 * l + (26097574011 : ℚ)/10^10 * m - (3413193965 : ℚ)/10^10 * s)
    b := truncPrec (-(41960863 : ℚ)/10^10 * l - (7034186147 : ℚ)/10^10 * m + (17076147010 : ℚ)/10^10 * s) }

/-- Modelled from the spec: the linear sRGB to OKLab transform, inverse of
`oklabToLrgb` (cube roots via the modelled Newton iteration). -/
def lrgbToOklab (r g b : ℚ) : ℚ × ℚ × ℚ :=
  let l := cbrtQ ((4122214708 : ℚ)/10^10 * r + (5363325363 : ℚ)/10^10 * g + (514459929 : ℚ)/10^10 * b)
  let m := cbrtQ ((2119034982 : ℚ)/10^10 * r + (6806995451 : ℚ)/10^10 * g + (1073969566 : ℚ)/10^10 * b)
  let s := cbrtQ ((883024619 : ℚ)/10^10 * r + (2817188376 : ℚ)/10^10 * g + (6299787005 : ℚ)/10^10 * b)
  (truncPrec ((2104542553 : ℚ)/10^10 * l + (7936177850 : ℚ)/10^10 * m - (40720468 : ℚ)/10^10 * s),
   truncPrec ((19779984951 : ℚ)/10^10 * l - (24285922050 : ℚ)/10^10 * m + (4505937099 : ℚ)/10^10 * s),
   truncPrec ((259040371 : ℚ)/10^10 * l + (7827717662 : ℚ)/10^10 * m - (8086757660 : ℚ)/10^10 * s))

/-- Modelled from the spec: the sRGB gamma transfer curve is strictly
monotone on [0, 1] with fixed points 0 and 1; it is modelled by the
identity, which has exactly the properties this development relies on
(monotonicity, range, fixed points).  It affects only the derived
`rgb`/`hsl`/`hex` numeric renderings, never a gamut decision. -/
def srgbTransfer (x : ℚ) : ℚ := x

/-- Modelled from the spec: inverse sRGB transfer, identity model. -/
def srgbTransferInv (x : ℚ) : ℚ := x

/-- Linear RGB of an OKLCH triple (hue through the modelled trig). -/
def oklchToLrgb (x : OklchT) : Rgb01 :=
  oklabToLrgb x.l (x.c * cosdQ x.h) (x.c * sindQ x.h)

/-- Modelled from the spec: culori `displayable` — the induced sRGB triple
lies in [0,1]³ (checked on linear channels; the transfer curve is a
monotone bijection of [0,1], so the check is equivalent). -/
def displayableOklch (x : OklchT) : Bool :=
  let c := oklchToLrgb x
  0 ≤ c.r ∧ c.r ≤ 1 ∧ 0 ≤ c.g ∧ c.g ≤ 1 ∧ 0 ≤ c.b ∧ c.b ≤ 1

/-- Bisection for the largest displayable chroma, keeping the last known
displayable lower bound. -/
def bisectChroma (l h : ℚ) : ℕ → ℚ → ℚ → ℚ
  | 0, lo, _ => lo
  | n + 1, lo, hi =>
    let mid := (lo + hi) / 2
    if displayableOklch ⟨l, mid, h⟩ then bisectChroma l h n mid hi
    else bisectChroma l h n lo mid

/-- Modelled from the spec: culori `clampChroma` in OKLCH — reduce C,
preserving L and H, until the induced sRGB triple lies in [0,1]³; a
displayable color is returned unchanged. -/
def clampChroma (x : OklchT) : OklchT :=
  if displayableOklch x then x else ⟨x.l, bisectChroma x.l x.h 12 0 x.c, x.h⟩

theorem clampChroma_l (x : OklchT) : (clampChroma x).l = x.l := by
  rw [clampChroma]
  split <;> rfl

theorem clampChroma_h (x : OklchT) : (clampChroma x).h = x.h := by
  rw [clampChroma]
  split <;> rfl

theorem clampChroma_of_displayable {x : OklchT}
    (hx : displayableOklch x = true) : clampChroma x = x := by
  rw [clampChroma, if_pos hx]

/-- Modelled from the spec: culori RGB to HSL conversion (standard
max/min sector formula; hue 0 for achromatic colors, matching the
`?? 0` coalescing at every use site in the source). -/
def rgbToHsl (c : Rgb01) : HslT :=
  let M := max c.r (max c.g c.b)
  let m := min c.r (min c.g c.b)
  let l := (M + m) / 2
  if M = m then ⟨0, 0, l⟩
  else
    let d := M - m
    let s := if l > 1/2 then d / (2 - M - m) else d / (M + m)
    let h :=
      if M = c.r then (c.g - c.b) / d + (if c.g < c.b then 6 else 0)
      else if M = c.g then (c.b - c.r) / d + 2
      else (c.r - c.g) / d + 4
    ⟨60 * h, s, l⟩

/-- Modelled from the spec: culori HSL to RGB conversion (standard
chroma/sector formula; `s` and `l` in [0,1]). -/
def hslToRgb (h s l : ℚ) : Rgb01 :=
  let hn := normalizeHue h
  let c := (1 - |2 * l - 1|) * s
  let sector := jsTrunc (hn / 60)
  let x := c * (1 - |jsMod (hn / 60) 2 - 1|)
  let m := l - c / 2
  let t : ℚ × ℚ × ℚ :=
    if sector = 0 then (c, x, 0)
    else if sector = 1 then (x, c, 0)
    else if sector = 2 then (0, c, x)
    else if sector = 3 then (0, x, c)
    else if sector = 4 then (x, 0, c)
    else (c, 0, x)
  ⟨t.1 + m, t.2.1 + m, t.2.2 + m⟩

/-- OKLCH of an OKLab triple: chroma is the Euclidean norm of (a, b), hue
the (modelled) two-argument arctangent, normalized; culori leaves the hue
of an achromatic color undefined and the source coalesces it with
`?? 0`, modelled by hue 0. -/
def oklchOfLab (L a b : ℚ) : OklchT :=
  ⟨L, sqrtQ (a^2 + b^2), if a = 0 ∧ b = 0 then 0 else normalizeHue (atan2DegQ b a)⟩

/-- Hex digit character (lowercase) for a value below 16. -/
def hexDigitChar (n : ℕ) : Char :=
  if n < 10 then Char.ofNat (48 + n) else Char.ofNat (87 + n)

/-- Two-digit lowercase hex rendering of a channel clamped to [0, 255],
as culori `formatHex` does. -/
def byteToHex (n : ℤ) : String :=
  let m := (min 255 (max 0 n)).toNat
  String.mk [hexDigitChar (m / 16), hexDigitChar (m % 16)]

/-- Modelled from the spec: culori `formatHex` on a 0..1 RGB triple. -/
def formatHexQ (c : Rgb01) : String :=
  "#" ++ byteToHex (jsRound (c.r * 255)) ++ byteToHex (jsRound (c.g * 255))
    ++ byteToHex (jsRound (c.b * 255))

/-- Value of one hex digit character. -/
def hexDigitVal (c : Char) : Option ℕ :=
  if '0' ≤ c ∧ c ≤ '9' then some (c.toNat - 48)
  else if 'a' ≤ c ∧ c ≤ 'f' then some (c.toNat - 87)
  else if 'A' ≤ c ∧ c ≤ 'F' then some (c.toNat - 55)
  else none

/-- Byte from two hex digit characters. -/
def hexByte (c₁ c₂ : Char) : Option ℕ :=
  match hexDigitVal c₁, hexDigitVal c₂ with
  | some a, some b => some (16 * a + b)
  | _, _ => none

/-- Modelled from the spec: culori `parse` restricted to the #RRGGBB and
#RGB hex literals this development feeds it. -/
def parseHexColor (s : String) : Option RgbT :=
  match s.toList with
  | ['#', a, b, c, d, e, f] =>
    match hexByte a b, hexByte c d, hexByte e f with
    | some r, some g, some bl => some ⟨r, g, bl⟩
    | _, _, _ => none
  | ['#', a, b, c] =>
    match hexDigitVal a, hexDigitVal b, hexDigitVal c with
    | some r, some g, some bl => some ⟨17 * r, 17 * g, 17 * bl⟩
    | _, _, _ => none
  | _ => none

/-- Gamma-encoded 0..1 RGB triple of a clamped OKLCH value (culori
`toRgb`). -/
def oklchToRgb01 (x : OklchT) : Rgb01 :=
  let lin := oklchToLrgb x
  ⟨srgbTransfer lin.r, srgbTransfer lin.g, srgbTransfer lin.b⟩

/-- Rounded 8-bit RGB record built from a 0..1 triple, as the source does
with `Math.round((c ?? 0) * 255)`. -/
def roundRgb (c : Rgb01) : RgbT :=
  ⟨jsRound (c.r * 255), jsRound (c.g * 255), jsRound (c.b * 255)⟩

/-- Embedding of `fromOklch` from src/lib/color-utils.ts: clamp the chroma
in OKLCH, then derive RGB, HSL and hex from the clamped value.  The
source's `null` branch fires only when culori's converters return
`undefined`, which cannot happen for the well-formed OKLCH records built
here, so the embedding is total. -/
def fromOklch (l c h : ℚ) : ColorResult :=
  let clamped := clampChroma ⟨l, c, h⟩
  let rgbColor := oklchToRgb01 clamped
  let hslColor := rgbToHsl rgbColor
  { hex := formatHexQ rgbColor
    rgb := roundRgb rgbColor
    oklch := clamped
    hsl := ⟨hslColor.h, hslColor.s * 100, hslColor.l * 100⟩ }

/-- Embedding of `fromHsl` from src/lib/color-utils.ts: convert to OKLCH,
clamp chroma there, derive RGB and hex from the clamped value, and store
the input h/s/l verbatim in the `hsl` field.  Total for the same reason as
`fromOklch`. -/
def fromHsl (h s l : ℚ) : ColorResult :=
  let rgb0 := hslToRgb h (s / 100) (l / 100)
  let lab := lrgbToOklab (srgbTransferInv rgb0.r) (srgbTransferInv rgb0.g)
    (srgbTransferInv rgb0.b)
  let clamped := clampChroma (oklchOfLab lab.1 lab.2.1 lab.2.2)
  let clampedRgb := oklchToRgb01 clamped
  { hex := formatHexQ clampedRgb
    rgb := roundRgb clampedRgb
    oklch := clamped
    hsl := ⟨h, s, l⟩ }

/-- Embedding of `parseColor` from src/lib/color-utils.ts for hex inputs:
parse, convert to OKLCH, clamp chroma to the sRGB gamut, and derive every
stored representation from the clamped value. -/
def parseColor (input : String) : Option ColorResult :=
  match parseHexColor input with
  | none => none
  | some rgbN =>
    let lab := lrgbToOklab (srgbTransferInv ((rgbN.r : ℚ) / 255))
      (srgbTransferInv ((rgbN.g : ℚ) / 255)) (srgbTransferInv ((rgbN.b : ℚ) / 255))
    let clamped := clampChroma (oklchOfLab lab.1 lab.2.1 lab.2.2)
    let clampedRgb := oklchToRgb01 clamped
    let clampedHsl := rgbToHsl clampedRgb
    some { hex := formatHexQ clampedRgb
           rgb := roundRgb clampedRgb
           oklch := clamped
           hsl := ⟨clampedHsl.h, clampedHsl.s * 100, clampedHsl.l * 100⟩ }

theorem fromOklch_oklch (l c h : ℚ) :
    (fromOklch l c h).oklch = clampChroma ⟨l, c, h⟩ := rfl

theorem fromOklch_oklch_l (l c h : ℚ) : (fromOklch l c h).oklch.l = l :=
  clampChroma_l _

theorem fromOklch_oklch_h (l c h : ℚ) : (fromOklch l c h).oklch.h = h :=
  clampChroma_h _

theorem fromHsl_hsl (h s l : ℚ) : (fromHsl h s l).hsl = ⟨h, s, l⟩ := rfl

/-- Color space selector from src/lib/color-utils.ts. -/
inductive ColorSpace
  | oklch
  | hsl
deriving DecidableEq, Repr

/-! ### Harmony generator (src/lib/generators/harmonic.ts) -/

/-- Harmony kinds from src/lib/generators/harmonic.ts (`golden` embeds
"golden-ratio"). -/
inductive HarmonyType
  | complementary
  | splitComplementary
  | triadic
  | tetradic
  | analogous
  | golden
deriving DecidableEq, Repr

/-- Embedding of `HarmonyConfig`: optional fields model the `?` options
with their `count = 5`, `spread = 30` defaults applied at the use site. -/
structure HarmonyConfig where
  type : HarmonyType
  count : Option ℕ
  spread : Option ℚ

/-- Golden angle constant from the source, 137.507764 degrees. -/
def goldenAngle : ℚ := 137507764 / 10^6

/-- Embedding of `generateHarmonyOklch`: every variant keeps the base
lightness and chroma and offsets only the hue, each non-base color built
with `fromOklch l c (normalizeHue hue)`.  The source's trailing
`filter (c !== null)` is the identity here because the embedded
`fromOklch` is total. -/
def generateHarmonyOklch (base : ColorResult) (t : HarmonyType) (count : ℕ)
    (spread : ℚ) : List ColorResult :=
  let l := base.oklch.l
  let c := base.oklch.c
  let h := base.oklch.h
  match t with
  | .complementary => [base, fromOklch l c (normalizeHue (h + 180))]
  | .splitComplementary =>
    [base, fromOklch l c (normalizeHue (h + 150)), fromOklch l c (normalizeHue (h + 210))]
  | .triadic =>
    [base, fromOklch l c (normalizeHue (h + 120)), fromOklch l c (normalizeHue (h + 240))]
  | .tetradic =>
    [base, fromOklch l c (normalizeHue (h + 90)), fromOklch l c (normalizeHue (h + 180)),
      fromOklch l c (normalizeHue (h + 270))]
  | .analogous =>
    [fromOklch l c (normalizeHue (h - spread * 2)), fromOklch l c (normalizeHue (h - spread)),
      base, fromOklch l c (normalizeHue (h + spread)),
      fromOklch l c (normalizeHue (h + spread * 2))]
  | .golden =>
    (List.range count).map fun i : ℕ => fromOklch l c (normalizeHue (h + (i : ℚ) * goldenAngle))

/-- Embedding of `generateHarmonyHsl`: same offsets, holding the base
saturation and lightness, each non-base color built with
`fromHsl (normalizeHue hue) s l`. -/
def generateHarmonyHsl (base : ColorResult) (t : HarmonyType) (count : ℕ)
    (spread : ℚ) : List ColorResult :=
  let h := base.hsl.h
  let s := base.hsl.s
  let l := base.hsl.l
  match t with
  | .complementary => [base, fromHsl (normalizeHue (h + 180)) s l]
  | .splitComplementary =>
    [base, fromHsl (normalizeHue (h + 150)) s l, fromHsl (normalizeHue (h + 210)) s l]
  | .triadic =>
    [base, fromHsl (normalizeHue (h + 120)) s l, fromHsl (normalizeHue (h + 240)) s l]
  | .tetradic =>
    [base, fromHsl (normalizeHue (h + 90)) s l, fromHsl (normalizeHue (h + 180)) s l,
      fromHsl (normalizeHue (h + 270)) s l]
  | .analogous =>
    [fromHsl (normalizeHue (h - spread * 2)) s l, fromHsl (normalizeHue (h - spread)) s l,
      base, fromHsl (normalizeHue (h + spread)) s l,
      fromHsl (normalizeHue (h + spread * 2)) s l]
  | .golden =>
    (List.range count).map fun i : ℕ => fromHsl (normalizeHue (h + (i : ℚ) * goldenAngle)) s l

/-- Embedding of `generateHarmony`: destructure the config with its
defaults (`count = 5`, `spread = 30`) and dispatch on the color space.
The config values are used exactly as given — the source performs no
clamping here. -/
def generateHarmony (base : ColorResult) (cfg : HarmonyConfig)
    (cs : ColorSpace) : List ColorResult :=
  let count := cfg.count.getD 5
  let spread := cfg.spread.getD 30
  match cs with
  | .oklch => generateHarmonyOklch base cfg.type count spread
  | .hsl => generateHarmonyHsl base cfg.type count spread

/-! ### Interpolation engine (src/lib/generators/interpolation.ts) -/

/-- Embedding of `lerp`: `a + (b - a) * t`. -/
def lerp (a b t : ℚ) : ℚ := a + (b - a) * t

/-- Embedding of `lerpHue`: wrap the difference into (-180, 180], walk
from `h1`, and re-normalize with `(… + 360) % 360`.  The source's
leading NaN coalescing is dead here: hues stored in a `ColorResult` are
never NaN (the source coalesces undefined hues to 0 on construction). -/
def lerpHue (h₁ h₂ t : ℚ) : ℚ :=
  let diff₀ := h₂ - h₁
  let diff₁ := if diff₀ > 180 then diff₀ - 360 else diff₀
  let diff := if diff₁ < -180 then diff₁ + 360 else diff₁
  jsMod (h₁ + diff * t + 360) 360

/-- Color produced at loop index `i` of `interpolateLinear`'s main loop:
global parameter, segment index (clamped to the last segment), local
parameter, then channel-wise lerp with circular hue handling. -/
def interpColorAt (colors : List ColorResult) (steps : ℕ) (cs : ColorSpace)
    (i : ℕ) : ColorResult :=
  let segments : ℚ := ((colors.length - 1 : ℕ) : ℚ)
  let t : ℚ := (i : ℚ) / ((steps : ℚ) - 1)
  let globalPos := t * segments
  let segmentIndex : ℕ := min (ratFloor globalPos).toNat (colors.length - 2)
  let localT := globalPos - (segmentIndex : ℚ)
  let c₁ := colors.getD segmentIndex defaultCR
  let c₂ := colors.getD (segmentIndex + 1) defaultCR
  match cs with
  | .oklch =>
    fromOklch (lerp c₁.oklch.l c₂.oklch.l localT) (lerp c₁.oklch.c c₂.oklch.c localT)
      (lerpHue c₁.oklch.h c₂.oklch.h localT)
  | .hsl =>
    fromHsl (lerpHue c₁.hsl.h c₂.hsl.h localT) (lerp c₁.hsl.s c₂.hsl.s localT)
      (lerp c₁.hsl.l c₂.hsl.l localT)

/-- Embedding of `interpolateLinear`: the guard cascade from the source,
then the main loop over `i < steps`.  The loop's conditional push is
unconditional here because the embedded constructors are total. -/
def interpolateLinear (colors : List ColorResult) (steps : ℕ)
    (cs : ColorSpace) : List ColorResult :=
  if colors.length = 0 then []
  else if colors.length = 1 then [colors.getD 0 defaultCR]
  else if steps < 2 then [colors.getD 0 defaultCR, colors.getD (colors.length - 1) defaultCR]
  else (List.range steps).map (interpColorAt colors steps cs)

/-! ### Colorful generator (src/lib/generators/colorful.ts)

The seeded PRNG closure `seededRandom` mutates a captured state
`s = Math.sin(s * 9999) * 10000` and yields the fractional part.  The
state is threaded explicitly here, and `Math.sin` (a transcendental
double-precision function) is a parameter `sinQ : ℚ → ℚ` of every
consumer: each theorem about the generator holds for every model of the
sine, and the fractional-part output lies in [0, 1) for all of them. -/

/-- Colorful methods from src/lib/generators/colorful.ts. -/
inductive ColorfulMethod
  | hueSweep
  | goldenAngleSweep
  | randomVibrant
  | randomPastel
  | randomDark
  | randomWarm
  | randomCool
  | earthTones
  | neon
deriving DecidableEq, Repr

/-- Embedding of `ColorfulConfig` (optional fields model the `?`
options). -/
structure ColorfulConfig where
  method : ColorfulMethod
  count : ℕ
  seed : Option ℚ
  fixedLightness : Option ℚ
  fixedChroma : Option ℚ
  fixedSaturation : Option ℚ
  fixedLightnessHsl : Option ℚ

/-- One step of the `seededRandom` closure: next state and the drawn
value `s - Math.floor(s)`. -/
def seededNext (sinQ : ℚ → ℚ) (s : ℚ) : ℚ × ℚ :=
  let s' := sinQ (s * 9999) * 10000
  (s', s' - (ratFloor s' : ℚ))

theorem seededNext_nonneg (sinQ : ℚ → ℚ) (s : ℚ) : 0 ≤ (seededNext sinQ s).2 := by
  have : (seededNext sinQ s).2 = Int.fract (sinQ (s * 9999) * 10000) := by
    rw [seededNext, Int.fract, ratFloor_eq]
  rw [this]
  exact Int.fract_nonneg _

theorem seededNext_lt_one (sinQ : ℚ → ℚ) (s : ℚ) : (seededNext sinQ s).2 < 1 := by
  have : (seededNext sinQ s).2 = Int.fract (sinQ (s * 9999) * 10000) := by
    rw [seededNext, Int.fract, ratFloor_eq]
  rw [this]
  exact Int.fract_lt_one _

/-- Option coalescing `fx ?? f (random())`: the stream is consumed only
when the fixed override is absent, as JavaScript `??` evaluates lazily. -/
def drawOr (sinQ : ℚ → ℚ) (s : ℚ) (fx : Option ℚ) (f : ℚ → ℚ) : ℚ × ℚ :=
  match fx with
  | some v => (s, v)
  | none => let p := seededNext sinQ s; (p.1, f p.2)

/-- State-threading loop shared by the randomized generators: `n` colors,
the step receiving the loop index and the PRNG state. -/
def randLoopIdx (f : ℕ → ℚ → ℚ × ColorResult) : ℕ → ℕ → ℚ → List ColorResult
  | _, 0, _ => []
  | i, n + 1, s =>
    let p := f i s
    p.2 :: randLoopIdx f (i + 1) n p.1

/-- Embedding of `generateHueSweep`: evenly spaced hues, fixed or default
lightness/chroma (OKLCH) or saturation/lightness (HSL); no randomness. -/
def generateHueSweep (count : ℕ) (cfg : ColorfulConfig) (cs : ColorSpace) :
    List ColorResult :=
  (List.range count).map fun i =>
    let h := normalizeHue ((i : ℚ) * ((360 : ℚ) / (count : ℚ)))
    match cs with
    | .oklch => fromOklch (cfg.fixedLightness.getD (65/100)) (cfg.fixedChroma.getD (18/100)) h
    | .hsl => fromHsl h (cfg.fixedSaturation.getD 75) (cfg.fixedLightnessHsl.getD 55)

/-- Embedding of `generateGoldenAngle`: one draw for the start hue, then
golden-angle hue steps with per-color draws for the unfixed channels. -/
def generateGoldenAngle (sinQ : ℚ → ℚ) (count : ℕ) (s₀ : ℚ)
    (cfg : ColorfulConfig) (cs : ColorSpace) : List ColorResult :=
  let p := seededNext sinQ s₀
  let startHue := p.2 * 360
  randLoopIdx (fun i s =>
    let h := normalizeHue (startHue + (i : ℚ) * goldenAngle)
    match cs with
    | .oklch =>
      let q₁ := drawOr sinQ s cfg.fixedLightness (fun r => 45/100 + r * (25/100))
      let q₂ := drawOr sinQ q₁.1 cfg.fixedChroma (fun r => 12/100 + r * (12/100))
      (q₂.1, fromOklch q₁.2 q₂.2 h)
    | .hsl =>
      let q₁ := drawOr sinQ s cfg.fixedSaturation (fun r => 60 + r * 30)
      let q₂ := drawOr sinQ q₁.1 cfg.fixedLightnessHsl (fun r => 45 + r * 25)
      (q₂.1, fromHsl h q₁.2 q₂.2)) 0 count p.1

/-- Embedding of `generateRandomVibrant`. -/
def generateRandomVibrant (sinQ : ℚ → ℚ) (count : ℕ) (s₀ : ℚ)
    (cfg : ColorfulConfig) (cs : ColorSpace) : List ColorResult :=
  randLoopIdx (fun _ s =>
    let p := seededNext sinQ s
    let h := p.2 * 360
    match cs with
    | .oklch =>
      let q₁ := drawOr sinQ p.1 cfg.fixedLightness (fun r => 55/100 + r * (20/100))
      let q₂ := drawOr sinQ q₁.1 cfg.fixedChroma (fun r => 20/100 + r * (10/100))
      (q₂.1, fromOklch q₁.2 q₂.2 h)
    | .hsl =>
      let q₁ := drawOr sinQ p.1 cfg.fixedSaturation (fun r => 80 + r * 20)
      let q₂ := drawOr sinQ q₁.1 cfg.fixedLightnessHsl (fun r => 50 + r * 15)
      (q₂.1, fromHsl h q₁.2 q₂.2)) 0 count s₀

/-- Embedding of `generateRandomPastel`. -/
def generateRandomPastel (sinQ : ℚ → ℚ) (count : ℕ) (s₀ : ℚ)
    (cfg : ColorfulConfig) (cs : ColorSpace) : List ColorResult :=
  randLoopIdx (fun _ s =>
    let p := seededNext sinQ s
    let h := p.2 * 360
    match cs with
    | .oklch =>
      let q₁ := drawOr sinQ p.1 cfg.fixedLightness (fun r => 85/100 + r * (10/100))
      let q₂ := drawOr sinQ q₁.1 cfg.fixedChroma (fun r => 5/100 + r * (8/100))
      (q₂.1, fromOklch q₁.2 q₂.2 h)
    | .hsl =>
      let q₁ := drawOr sinQ p.1 cfg.fixedSaturation (fun r => 40 + r * 30)
      let q₂ := drawOr sinQ q₁.1 cfg.fixedLightnessHsl (fun r => 80 + r * 15)
      (q₂.1, fromHsl h q₁.2 q₂.2)) 0 count s₀

/-- Embedding of `generateRandomDark`. -/
def generateRandomDark (sinQ : ℚ → ℚ) (count : ℕ) (s₀ : ℚ)
    (cfg : ColorfulConfig) (cs : ColorSpace) : List ColorResult :=
  randLoopIdx (fun _ s =>
    let p := seededNext sinQ s
    let h := p.2 * 360
    match cs with
    | .oklch =>
      let q₁ := drawOr sinQ p.1 cfg.fixedLightness (fun r => 20/100 + r * (25/100))
      let q₂ := drawOr sinQ q₁.1 cfg.fixedChroma (fun r => 8/100 + r * (12/100))
      (q₂.1, fromOklch q₁.2 q₂.2 h)
    | .hsl =>
      let q₁ := drawOr sinQ p.1 cfg.fixedSaturation (fun r => 50 + r * 40)
      let q₂ := drawOr sinQ q₁.1 cfg.fixedLightnessHsl (fun r => 15 + r * 25)
      (q₂.1, fromHsl h q₁.2 q₂.2)) 0 count s₀

/-- Embedding of `generateRandomWarm`: a first draw decides the hue
family, a second draws the hue inside it, then `normalizeHue`. -/
def generateRandomWarm (sinQ : ℚ → ℚ) (count : ℕ) (s₀ : ℚ)
    (cfg : ColorfulConfig) (cs : ColorSpace) : List ColorResult :=
  randLoopIdx (fun _ s =>
    let p := seededNext sinQ s
    let q := seededNext sinQ p.1
    let h := normalizeHue (if p.2 > 3/10 then q.2 * 80 else 300 + q.2 * 60)
    match cs with
    | .oklch =>
      let q₁ := drawOr sinQ q.1 cfg.fixedLightness (fun r => 50/100 + r * (30/100))
      let q₂ := drawOr sinQ q₁.1 cfg.fixedChroma (fun r => 12/100 + r * (15/100))
      (q₂.1, fromOklch q₁.2 q₂.2 h)
    | .hsl =>
      let q₁ := drawOr sinQ q.1 cfg.fixedSaturation (fun r => 60 + r * 35)
      let q₂ := drawOr sinQ q₁.1 cfg.fixedLightnessHsl (fun r => 45 + r * 35)
      (q₂.1, fromHsl h q₁.2 q₂.2)) 0 count s₀

/-- Embedding of `generateRandomCool`: hue drawn as `120 + random() * 180`
per color. -/
def generateRandomCool (sinQ : ℚ → ℚ) (count : ℕ) (s₀ : ℚ)
    (cfg : ColorfulConfig) (cs : ColorSpace) : List ColorResult :=
  randLoopIdx (fun _ s =>
    let p := seededNext sinQ s
    let h := 120 + p.2 * 180
    match cs with
    | .oklch =>
      let q₁ := drawOr sinQ p.1 cfg.fixedLightness (fun r => 45/100 + r * (35/100))
      let q₂ := drawOr sinQ q₁.1 cfg.fixedChroma (fun r => 10/100 + r * (15/100))
      (q₂.1, fromOklch q₁.2 q₂.2 h)
    | .hsl =>
      let q₁ := drawOr sinQ p.1 cfg.fixedSaturation (fun r => 55 + r * 40)
      let q₂ := drawOr sinQ q₁.1 cfg.fixedLightnessHsl (fun r => 40 + r * 40)
      (q₂.1, fromHsl h q₁.2 q₂.2)) 0 count s₀

/-- Embedding of `generateEarthTones`: hue drawn as `20 + random() * 70`
per color. -/
def generateEarthTones (sinQ : ℚ → ℚ) (count : ℕ) (s₀ : ℚ)
    (cfg : ColorfulConfig) (cs : ColorSpace) : List ColorResult :=
  randLoopIdx (fun _ s =>
    let p := seededNext sinQ s
    let h := 20 + p.2 * 70
    match cs with
    | .oklch =>
      let q₁ := drawOr sinQ p.1 cfg.fixedLightness (fun r => 35/100 + r * (35/100))
      let q₂ := drawOr sinQ q₁.1 cfg.fixedChroma (fun r => 4/100 + r * (8/100))
      (q₂.1, fromOklch q₁.2 q₂.2 h)
    | .hsl =>
      let q₁ := drawOr sinQ p.1 cfg.fixedSaturation (fun r => 25 + r * 35)
      let q₂ := drawOr sinQ q₁.1 cfg.fixedLightnessHsl (fun r => 30 + r * 40)
      (q₂.1, fromHsl h q₁.2 q₂.2)) 0 count s₀

/-- Embedding of `generateNeon`. -/
def generateNeon (sinQ : ℚ → ℚ) (count : ℕ) (s₀ : ℚ)
    (cfg : ColorfulConfig) (cs : ColorSpace) : List ColorResult :=
  randLoopIdx (fun _ s =>
    let p := seededNext sinQ s
    let h := p.2 * 360
    match cs with
    | .oklch =>
      let q₁ := drawOr sinQ p.1 cfg.fixedLightness (fun r => 75/100 + r * (15/100))
      let q₂ := drawOr sinQ q₁.1 cfg.fixedChroma (fun r => 25/100 + r * (10/100))
      (q₂.1, fromOklch q₁.2 q₂.2 h)
    | .hsl =>
      let q₁ := drawOr sinQ p.1 cfg.fixedSaturation (fun r => 95 + r * 5)
      let q₂ := drawOr sinQ q₁.1 cfg.fixedLightnessHsl (fun r => 55 + r * 15)
      (q₂.1, fromHsl h q₁.2 q₂.2)) 0 count s₀

/-- Embedding of `generateColorful`: resolve the seed (`config.seed` with
a `Date.now()` fallback, modelled by the explicit `now` argument), start
the seeded stream there, and dispatch on the method. -/
def generateColorful (sinQ : ℚ → ℚ) (cfg : ColorfulConfig) (cs : ColorSpace)
    (now : ℚ) : List ColorResult :=
  let seed := cfg.seed.getD now
  match cfg.method with
  | .hueSweep => generateHueSweep cfg.count cfg cs
  | .goldenAngleSweep => generateGoldenAngle sinQ cfg.count seed cfg cs
  | .randomVibrant => generateRandomVibrant sinQ cfg.count seed cfg cs
  | .randomPastel => generateRandomPastel sinQ cfg.count seed cfg cs
  | .randomDark => generateRandomDark sinQ cfg.count seed cfg cs
  | .randomWarm => generateRandomWarm sinQ cfg.count seed cfg cs
  | .randomCool => generateRandomCool sinQ cfg.count seed cfg cs
  | .earthTones => generateEarthTones sinQ cfg.count seed cfg cs
  | .neon => generateNeon sinQ cfg.count seed cfg cs

/-! ### Contrast evaluator (src/lib/contrast.ts)

`Math.pow` with fractional exponents is transcendental, so it enters the
embedding as a parameter `powQ : ℚ → ℚ → ℚ` constrained by `PowModel`:
the three facts about real powers the proofs use (fixed points 0 and 1,
and `1 ≤ x^e ≤ x` for exponents in (0, 1] at arguments ≥ 1). -/

/-- Properties of the real power function assumed of a `powQ` model. -/
def PowModel (powQ : ℚ → ℚ → ℚ) : Prop :=
  (∀ e : ℚ, 0 < e → powQ 0 e = 0) ∧ (∀ e : ℚ, powQ 1 e = 1) ∧
    (∀ x e : ℚ, 1 ≤ x → 0 < e → e ≤ 1 → 1 ≤ powQ x e ∧ powQ x e ≤ x)

theorem powModel_max : PowModel (fun x _ => max 0 x) := by
  refine ⟨fun e _ => by simp, fun e => by norm_num, fun x e hx _ _ => ?_⟩
  simp only
  constructor
  · rw [max_eq_right (le_trans zero_le_one hx)]
    exact hx
  · exact max_le (le_trans zero_le_one hx) le_rfl

/-- Embedding of `sRGBtoY`: linearize each 8-bit channel with exponent
2.4 and combine with the source's sRGB coefficients (which sum to
1.0000001, not 1). -/
def sRGBtoY (powQ : ℚ → ℚ → ℚ) (c : RgbT) : ℚ :=
  (2126729 : ℚ)/10^7 * powQ ((c.r : ℚ)/255) (12/5) +
    (7151522 : ℚ)/10^7 * powQ ((c.g : ℚ)/255) (12/5) +
    (721750 : ℚ)/10^7 * powQ ((c.b : ℚ)/255) (12/5)

/-- Embedding of `APCAcontrast`: clamp the luminances at 0, branch on
polarity, apply the asymmetric exponent/scale/offset formula and the 0.1
low-contrast clip. -/
def APCAcontrast (powQ : ℚ → ℚ → ℚ) (txtY bgY : ℚ) : ℚ :=
  let tY := max 0 txtY
  let bY := max 0 bgY
  if bY > tY then
    let SAPC := (powQ bY (56/100) - powQ tY (57/100)) * (114/100)
    if SAPC < 1/10 then 0 else SAPC - 27/1000
  else
    let SAPC := (powQ bY (65/100) - powQ tY (62/100)) * (114/100)
    if SAPC > -(1/10) then 0 else SAPC + 27/1000

/-- Embedding of `getAPCAContrast`: APCA of the two stored RGB triples,
scaled by 100. -/
def getAPCAContrast (powQ : ℚ → ℚ → ℚ) (textColor bgColor : ColorResult) : ℚ :=
  APCAcontrast powQ (sRGBtoY powQ textColor.rgb) (sRGBtoY powQ bgColor.rgb) * 100

/-- The `parseColor("#FFFFFF")!` constant of `getContrastTextColor`. -/
def whiteParsed : ColorResult := (parseColor "#FFFFFF").getD defaultCR

/-- The `parseColor("#000000")!` constant of `getContrastTextColor`. -/
def blackParsed : ColorResult := (parseColor "#000000").getD defaultCR

/-- Embedding of `getContrastTextColor` on an already-parsed background:
compare the APCA magnitudes of white-on-bg and black-on-bg. -/
def getContrastTextColorOf (powQ : ℚ → ℚ → ℚ) (bg : ColorResult) : String :=
  let whiteContrast := |getAPCAContrast powQ whiteParsed bg|
  let blackContrast := |getAPCAContrast powQ blackParsed bg|
  if whiteContrast > blackContrast then "#FFFFFF" else "#000000"

/-- Embedding of `getContrastTextColor` on a string background: parse
first, defaulting to black on parse failure. -/
def getContrastTextColorHex (powQ : ℚ → ℚ → ℚ) (s : String) : String :=
  match parseColor s with
  | none => "#000000"
  | some bg => getContrastTextColorOf powQ bg

/-! ### Image color extraction (k-means, unnamed source part_005)

`Math.random()` enters as an explicit stream `rand : ℕ → ℚ`, consumed in
call order.  `colorDistance` in the source is the Euclidean norm
(`Math.sqrt` of the sum of squared channel differences); the square root
is strictly monotone on nonnegative reals, so every comparison of
distances is modelled by the same comparison of squared distances, and
the k-means++ weights — the source squares the sqrt distance — are
exactly the squared distances. -/

/-- Pixel RGB triple from the extraction pipeline. -/
structure RGBpx where
  r : ℚ
  g : ℚ
  b : ℚ
deriving DecidableEq, Repr

/-- Cluster record: centroid and member count. -/
structure Cluster where
  center : RGBpx
  count : ℕ
deriving DecidableEq, Repr

/-- Squared Euclidean RGB distance (see the section comment). -/
def colorDistanceSq (a b : RGBpx) : ℚ :=
  (a.r - b.r)^2 + (a.g - b.g)^2 + (a.b - b.b)^2

/-- Argmin scan over the centroid list: `minDist = Infinity, minIdx = 0`
then strict-improvement updates, modelled with an `Option` for the
infinite initial distance. -/
def nearestIdxAux (p : RGBpx) : List RGBpx → ℕ → Option ℚ → ℕ → ℕ
  | [], _, _, best => best
  | c :: rest, i, bestD, best =>
    let d := colorDistanceSq p c
    if bestD.all (fun bd => d < bd) then nearestIdxAux p rest (i + 1) (some d) i
    else nearestIdxAux p rest (i + 1) bestD best

/-- Index of the nearest centroid to `p`. -/
def nearestIdx (cents : List RGBpx) (p : RGBpx) : ℕ :=
  nearestIdxAux p cents 0 none 0

/-- Squared distance to the nearest existing centroid
(`Math.min(...centroids.map(...))` squared). -/
def minDistSq (cents : List RGBpx) (p : RGBpx) : ℚ :=
  ((cents.map (colorDistanceSq p)).min?).getD 0

/-- The k-means++ roulette scan: subtract weights from the running draw
and stop at the first index where it falls to 0 or below; `none` when the
draw exceeds the total weight (the source would then redraw). -/
def pickIdx : List ℚ → ℚ → Option ℕ
  | [], _ => none
  | d :: rest, r => if r - d ≤ 0 then some 0 else (pickIdx rest (r - d)).map (· + 1)

/-- The k-means++ seeding `while` loop, with fuel: each successful
roulette draw appends one centroid; with draws in [0, 1) the pick never
fails, so fuel `k` reproduces the source's loop, which runs until `k`
centroids exist. -/
def seedLoop (rand : ℕ → ℚ) (pixels : List RGBpx) (k : ℕ) :
    ℕ → List RGBpx → ℕ → List RGBpx × ℕ
  | 0, cents, n => (cents, n)
  | fuel + 1, cents, n =>
    if cents.length < k then
      let dists := pixels.map (minDistSq cents)
      let r := rand n * dists.sum
      match pickIdx dists r with
      | some i => seedLoop rand pixels k fuel (cents ++ [pixels.getD i ⟨0, 0, 0⟩]) (n + 1)
      | none => seedLoop rand pixels k fuel cents (n + 1)
    else (cents, n)

/-- Assignment phase of one Lloyd iteration: `k` buckets, each pixel
pushed onto the bucket of its nearest centroid. -/
def assignClusters (cents : List RGBpx) (pixels : List RGBpx) (k : ℕ) :
    List (List RGBpx) :=
  pixels.foldl (fun cl p =>
    let idx := nearestIdx cents p
    cl.set idx (cl.getD idx [] ++ [p])) (List.replicate k [])

/-- Per-channel mean of a bucket, `Math.round`ed as in the source. -/
def roundedMean (cl : List RGBpx) : RGBpx :=
  ⟨(jsRound ((cl.map RGBpx.r).sum / (cl.length : ℚ)) : ℚ),
    (jsRound ((cl.map RGBpx.g).sum / (cl.length : ℚ)) : ℚ),
    (jsRound ((cl.map RGBpx.b).sum / (cl.length : ℚ)) : ℚ)⟩

/-- Update phase of one Lloyd iteration: nonempty buckets replace their
centroid by the rounded mean, empty buckets keep the old centroid. -/
def updateCentroids (cents : List RGBpx) (clusters : List (List RGBpx)) :
    List RGBpx :=
  (List.range cents.length).map fun i =>
    let cl := clusters.getD i []
    if 0 < cl.length then roundedMean cl else cents.getD i ⟨0, 0, 0⟩

/-- One Lloyd iteration: assign, then update. -/
def lloydIter (pixels : List RGBpx) (k : ℕ) (cents : List RGBpx) : List RGBpx :=
  updateCentroids cents (assignClusters cents pixels k)

/-- Final assignment pass: member count per centroid. -/
def finalCounts (cents : List RGBpx) (pixels : List RGBpx) : List ℕ :=
  pixels.foldl (fun counts p =>
    let idx := nearestIdx cents p
    counts.set idx (counts.getD idx 0 + 1)) (List.replicate cents.length 0)

/-- Embedding of `kMeansClustering`: the two guard branches, k-means++
seeding, ten Lloyd iterations, the final counting pass, and the empty
cluster filter. -/
def kMeansClustering (rand : ℕ → ℚ) (pixels : List RGBpx) (k : ℕ) :
    List Cluster :=
  if pixels.length = 0 then []
  else if pixels.length ≤ k then pixels.map fun p => ⟨p, 1⟩
  else
    let i₀ := (ratFloor (rand 0 * (pixels.length : ℚ))).toNat
    let seeded := seedLoop rand pixels k k [pixels.getD i₀ ⟨0, 0, 0⟩] 1
    let cents := (lloydIter pixels k)^[10] seeded.1
    let counts := finalCounts cents pixels
    ((cents.zip counts).map fun pc => Cluster.mk pc.1 pc.2).filter fun c => 0 < c.count

/-- Stable insertion of a cluster into a descending-by-count list. -/
def insertByCount (c : Cluster) : List Cluster → List Cluster
  | [] => [c]
  | d :: rest => if d.count < c.count then c :: d :: rest else d :: insertByCount c rest

/-- Embedding of `clusters.sort((a, b) => b.count - a.count)`: JavaScript
`sort` is stable, and a stable sort's output is uniquely determined by
the comparator preorder and the input order, which the insertion sort
below computes for the descending-by-count preorder. -/
def sortByCountDesc : List Cluster → List Cluster
  | [] => []
  | c :: rest => insertByCount c (sortByCountDesc rest)

/-- Hex string of a centroid (`rgbToHex` in the source; channels are
integers by construction). -/
def rgbToHexStr (c : RGBpx) : String :=
  "#" ++ byteToHex (ratFloor c.r) ++ byteToHex (ratFloor c.g) ++ byteToHex (ratFloor c.b)

/-- The sorted cluster list of `extractColorsFromImage`, after
clustering, before conversion to `ColorResult`. -/
def extractionClusters (rand : ℕ → ℚ) (pixels : List RGBpx) (k : ℕ) :
    List Cluster :=
  sortByCountDesc (kMeansClustering rand pixels k)

/-- Embedding of the synchronous tail of `extractColorsFromImage` (the
DOM image decode and pixel sampling feed `pixels`): cluster, sort by
descending member count, convert each centroid through `parseColor`,
skipping failures. -/
def extractColorsFromPixels (rand : ℕ → ℚ) (pixels : List RGBpx) (k : ℕ) :
    List ColorResult :=
  (extractionClusters rand pixels k).filterMap fun cl => parseColor (rgbToHexStr cl.center)


/-! ### Supporting lemmas for the claims -/

theorem normalizeHue_eq_sub_floor (h : ℚ) :
    normalizeHue h = h - 360 * (⌊h / 360⌋ : ℚ) := by
  rw [normalizeHue_eq_fract, Int.fract, mul_sub,
    mul_div_cancel₀ h (by norm_num : (360:ℚ) ≠ 0)]

theorem normalizeHue_compl (h : ℚ) :
    normalizeHue (normalizeHue (h + 180) - h) = 180 := by
  rw [normalizeHue_eq_sub_floor (h + 180)]
  have harg : h + 180 - 360 * (⌊(h + 180) / 360⌋ : ℚ) - h
      = 180 + 360 * ((-⌊(h + 180) / 360⌋ : ℤ) : ℚ) := by
    push_cast
    ring
  rw [harg, normalizeHue_int_shift 180 (-⌊(h + 180) / 360⌋)]
  exact normalizeHue_of_mem 180 (by norm_num) (by norm_num)

theorem cosdQ_0deg : cosdQ 0 = 1 := by
  have h0 : normalizeHue 0 = 0 := normalizeHue_of_mem 0 (by norm_num) (by norm_num)
  norm_num [cosdQ, h0, cosq, truncPrec, ratFloor]

theorem sindQ_0deg : sindQ 0 = 0 := by
  have h0 : normalizeHue 0 = 0 := normalizeHue_of_mem 0 (by norm_num) (by norm_num)
  norm_num [sindQ, h0, sinq, truncPrec, ratFloor]

theorem cosdQ_180deg : cosdQ 180 = -1 := by
  have h0 : normalizeHue 180 = 180 := normalizeHue_of_mem 180 (by norm_num) (by norm_num)
  norm_num [cosdQ, h0, cosq, truncPrec, ratFloor]

theorem sindQ_180deg : sindQ 180 = 0 := by
  have h0 : normalizeHue 180 = 180 := normalizeHue_of_mem 180 (by norm_num) (by norm_num)
  norm_num [sindQ, h0, sinq, truncPrec, ratFloor]

theorem bisectChroma_succ_true (l h lo hi mid : ℚ) (n : ℕ) (hm : (lo + hi) / 2 = mid)
    (hd : displayableOklch ⟨l, mid, h⟩ = true) :
    bisectChroma l h (n + 1) lo hi = bisectChroma l h n mid hi := by
  simp only [bisectChroma, hm, hd, if_true]

theorem bisectChroma_succ_false (l h lo hi mid : ℚ) (n : ℕ) (hm : (lo + hi) / 2 = mid)
    (hd : displayableOklch ⟨l, mid, h⟩ = false) :
    bisectChroma l h (n + 1) lo hi = bisectChroma l h n lo mid := by
  simp only [bisectChroma, hm, hd, Bool.false_eq_true, if_false]

theorem disp0_base : displayableOklch ⟨6/10, 2/10, 0⟩ = true := by
  simp only [displayableOklch, oklchToLrgb, cosdQ_0deg, sindQ_0deg]
  norm_num [oklabToLrgb, truncPrec, ratFloor]

theorem disp180_base : displayableOklch ⟨6/10, 2/10, 180⟩ = false := by
  simp only [displayableOklch, oklchToLrgb, cosdQ_180deg, sindQ_180deg]
  norm_num [oklabToLrgb, truncPrec, ratFloor]

theorem disp180_1 : displayableOklch ⟨6/10, 1/10, 180⟩ = true := by
  simp only [displayableOklch, oklchToLrgb, cosdQ_180deg, sindQ_180deg]
  norm_num [oklabToLrgb, truncPrec, ratFloor]

theorem disp180_2 : displayableOklch ⟨6/10, 3/20, 180⟩ = false := by
  simp only [displayableOklch, oklchToLrgb, cosdQ_180deg, sindQ_180deg]
  norm_num [oklabToLrgb, truncPrec, ratFloor]

theorem disp180_3 : displayableOklch ⟨6/10, 1/8, 180⟩ = false := by
  simp only [displayableOklch, oklchToLrgb, cosdQ_180deg, sindQ_180deg]
  norm_num [oklabToLrgb, truncPrec, ratFloor]

theorem disp180_4 : displayableOklch ⟨6/10, 9/80, 180⟩ = false := by
  simp only [displayableOklch, oklchToLrgb, cosdQ_180deg, sindQ_180deg]
  norm_num [oklabToLrgb, truncPrec, ratFloor]

theorem disp180_5 : displayableOklch ⟨6/10, 17/160, 180⟩ = true := by
  simp only [displayableOklch, oklchToLrgb, cosdQ_180deg, sindQ_180deg]
  norm_num [oklabToLrgb, truncPrec, ratFloor]

theorem disp180_6 : displayableOklch ⟨6/10, 7/64, 180⟩ = false := by
  simp only [displayableOklch, oklchToLrgb, cosdQ_180deg, sindQ_180deg]
  norm_num [oklabToLrgb, truncPrec, ratFloor]

theorem disp180_7 : displayableOklch ⟨6/10, 69/640, 180⟩ = true := by
  simp only [displayableOklch, oklchToLrgb, cosdQ_180deg, sindQ_180deg]
  norm_num [oklabToLrgb, truncPrec, ratFloor]

theorem disp180_8 : displayableOklch ⟨6/10, 139/1280, 180⟩ = true := by
  simp only [displayableOklch, oklchToLrgb, cosdQ_180deg, sindQ_180deg]
  norm_num [oklabToLrgb, truncPrec, ratFloor]

theorem disp180_9 : displayableOklch ⟨6/10, 279/2560, 180⟩ = false := by
  simp only [displayableOklch, oklchToLrgb, cosdQ_180deg, sindQ_180deg]
  norm_num [oklabToLrgb, truncPrec, ratFloor]

theorem disp180_10 : displayableOklch ⟨6/10, 557/5120, 180⟩ = true := by
  simp only [displayableOklch, oklchToLrgb, cosdQ_180deg, sindQ_180deg]
  norm_num [oklabToLrgb, truncPrec, ratFloor]

theorem disp180_11 : displayableOklch ⟨6/10, 223/2048, 180⟩ = false := by
  simp only [displayableOklch, oklchToLrgb, cosdQ_180deg, sindQ_180deg]
  norm_num [oklabToLrgb, truncPrec, ratFloor]

theorem disp180_12 : displayableOklch ⟨6/10, 2229/20480, 180⟩ = true := by
  simp only [displayableOklch, oklchToLrgb, cosdQ_180deg, sindQ_180deg]
  norm_num [oklabToLrgb, truncPrec, ratFloor]

theorem bisect_eval_c1 : bisectChroma (6/10) 180 12 0 (2/10) = 2229/20480 := by
  rw [show (12:ℕ) = 11+1 from rfl,
    bisectChroma_succ_true (6/10) 180 (0) (2/10) (1/10) 11 (by norm_num) disp180_1]
  rw [show (11:ℕ) = 10+1 from rfl,
    bisectChroma_succ_false (6/10) 180 (1/10) (2/10) (3/20) 10 (by norm_num) disp180_2]
  rw [show (10:ℕ) = 9+1 from rfl,
    bisectChroma_succ_false (6/10) 180 (1/10) (3/20) (1/8) 9 (by norm_num) disp180_3]
  rw [show (9:ℕ) = 8+1 from rfl,
    bisectChroma_succ_false (6/10) 180 (1/10) (1/8) (9/80) 8 (by norm_num) disp180_4]
  rw [show (8:ℕ) = 7+1 from rfl,
    bisectChroma_succ_true (6/10) 180 (1/10) (9/80) (17/160) 7 (by norm_num) disp180_5]
  rw [show (7:ℕ) = 6+1 from rfl,
    bisectChroma_succ_false (6/10) 180 (17/160) (9/80) (7/64) 6 (by norm_num) disp180_6]
  rw [show (6:ℕ) = 5+1 from rfl,
    bisectChroma_succ_true (6/10) 180 (17/160) (7/64) (69/640) 5 (by norm_num) disp180_7]
  rw [show (5:ℕ) = 4+1 from rfl,
    bisectChroma_succ_true (6/10) 180 (69/640) (7/64) (139/1280) 4 (by norm_num) disp180_8]
  rw [show (4:ℕ) = 3+1 from rfl,
    bisectChroma_succ_false (6/10) 180 (139/1280) (7/64) (279/2560) 3 (by norm_num) disp180_9]
  rw [show (3:ℕ) = 2+1 from rfl,
    bisectChroma_succ_true (6/10) 180 (139/1280) (279/2560) (557/5120) 2 (by norm_num) disp180_10]
  rw [show (2:ℕ) = 1+1 from rfl,
    bisectChroma_succ_false (6/10) 180 (557/5120) (279/2560) (223/2048) 1 (by norm_num) disp180_11]
  rw [show (1:ℕ) = 0+1 from rfl,
    bisectChroma_succ_true (6/10) 180 (557/5120) (223/2048) (2229/20480) 0 (by norm_num) disp180_12]
  rfl

theorem base_oklch_c1 : (fromOklch (6/10) (2/10) 0).oklch = ⟨6/10, 2/10, 0⟩ := by
  rw [fromOklch_oklch, clampChroma_of_displayable disp0_base]

theorem compl_oklch_c1 :
    (fromOklch (6/10) (2/10) (normalizeHue ((0:ℚ) + 180))).oklch = ⟨6/10, 2229/20480, 180⟩ := by
  have hn : normalizeHue ((0:ℚ) + 180) = 180 := by
    rw [zero_add]
    exact normalizeHue_of_mem 180 (by norm_num) (by norm_num)
  rw [hn, fromOklch_oklch, clampChroma, if_neg (by simp [disp180_base])]
  show OklchT.mk (6/10) (bisectChroma (6/10) 180 12 0 (2/10)) 180 = _
  rw [bisect_eval_c1]

/-! ### The claims -/

/-- C2: linear hue interpolation takes the shortest circular arc —
interpolating from hue 350° to hue 10° at `t = 0.5` yields hue 0°, not
180°. -/
theorem c2_lerpHue_shortest_arc :
    lerpHue 350 10 (1/2) = 0 ∧ lerpHue 350 10 (1/2) ≠ 180 := by
  have h : lerpHue 350 10 (1/2) = 0 := by
    norm_num [lerpHue, jsMod, jsTrunc, ratFloor]
  exact ⟨h, by rw [h]; norm_num⟩

/-- C4: for every rational `h`, `normalizeHue h` lies in [0, 360), and
`normalizeHue` is invariant under adding 360. -/
theorem c4_normalizeHue_range_period (h : ℚ) :
    (0 ≤ normalizeHue h ∧ normalizeHue h < 360) ∧
      normalizeHue h = normalizeHue (h + 360) :=
  ⟨⟨normalizeHue_nonneg h, normalizeHue_lt h⟩, (normalizeHue_add_360 h).symm⟩

/-- C1 counterexample: for the base color `fromOklch 0.6 0.2 0°` (a
displayable reddish-pink), the complementary harmony in OKLCH returns a
second color whose chroma has been gamut-clamped from 0.2 down to
2229/20480 ≈ 0.1088, so lightness and hue behave as claimed but the
chroma is NOT identical across the two outputs. -/
theorem c1_counterexample :
    ((generateHarmony (fromOklch (6/10) (2/10) 0) ⟨.complementary, none, none⟩ .oklch).map
      (fun c => c.oklch)) = [⟨6/10, 2/10, 0⟩, ⟨6/10, 2229/20480, 180⟩] ∧
    (2229/20480 : ℚ) ≠ 2/10 := by
  constructor
  · show (generateHarmonyOklch (fromOklch (6/10) (2/10) 0) .complementary 5 30).map
      (fun c => c.oklch) = _
    simp only [generateHarmonyOklch, List.map]
    rw [base_oklch_c1]
    show [(⟨6/10, 2/10, 0⟩ : OklchT),
      (fromOklch (6/10) (2/10) (normalizeHue ((0:ℚ) + 180))).oklch] = _
    rw [compl_oklch_c1]
  · norm_num

/-- C1 amended: the complementary harmony returns exactly two colors; in
OKLCH the second keeps the base lightness, its hue is exactly 180° from
the base hue mod 360, and its chroma equals the base chroma exactly when
the complementary hue is displayable at the base chroma (otherwise gamut
clamping reduces it); in HSL saturation and lightness are identical
exactly and the hues differ by exactly 180° mod 360. -/
theorem c1_complementary_amended (base : ColorResult) :
    (generateHarmony base ⟨.complementary, none, none⟩ .oklch).length = 2 ∧
    (generateHarmony base ⟨.complementary, none, none⟩ .oklch).getD 0 defaultCR = base ∧
    ((generateHarmony base ⟨.complementary, none, none⟩ .oklch).getD 1 defaultCR).oklch.l
      = base.oklch.l ∧
    ((generateHarmony base ⟨.complementary, none, none⟩ .oklch).getD 1 defaultCR).oklch.h
      = normalizeHue (base.oklch.h + 180) ∧
    normalizeHue
      (((generateHarmony base ⟨.complementary, none, none⟩ .oklch).getD 1 defaultCR).oklch.h
        - base.oklch.h) = 180 ∧
    (displayableOklch ⟨base.oklch.l, base.oklch.c, normalizeHue (base.oklch.h + 180)⟩ = true →
      ((generateHarmony base ⟨.complementary, none, none⟩ .oklch).getD 1 defaultCR).oklch.c
        = base.oklch.c) ∧
    (generateHarmony base ⟨.complementary, none, none⟩ .hsl).length = 2 ∧
    (generateHarmony base ⟨.complementary, none, none⟩ .hsl).getD 0 defaultCR = base ∧
    ((generateHarmony base ⟨.complementary, none, none⟩ .hsl).getD 1 defaultCR).hsl.s
      = base.hsl.s ∧
    ((generateHarmony base ⟨.complementary, none, none⟩ .hsl).getD 1 defaultCR).hsl.l
      = base.hsl.l ∧
    ((generateHarmony base ⟨.complementary, none, none⟩ .hsl).getD 1 defaultCR).hsl.h
      = normalizeHue (base.hsl.h + 180) ∧
    normalizeHue
      (((generateHarmony base ⟨.complementary, none, none⟩ .hsl).getD 1 defaultCR).hsl.h
        - base.hsl.h) = 180 := by
  have eo : generateHarmony base ⟨.complementary, none, none⟩ .oklch
      = [base, fromOklch base.oklch.l base.oklch.c (normalizeHue (base.oklch.h + 180))] := rfl
  have eh : generateHarmony base ⟨.complementary, none, none⟩ .hsl
      = [base, fromHsl (normalizeHue (base.hsl.h + 180)) base.hsl.s base.hsl.l] := rfl
  rw [eo, eh]
  have go : ([base, fromOklch base.oklch.l base.oklch.c
      (normalizeHue (base.oklch.h + 180))].getD 1 defaultCR)
      = fromOklch base.oklch.l base.oklch.c (normalizeHue (base.oklch.h + 180)) := rfl
  have gh : ([base, fromHsl (normalizeHue (base.hsl.h + 180)) base.hsl.s base.hsl.l].getD 1
      defaultCR) = fromHsl (normalizeHue (base.hsl.h + 180)) base.hsl.s base.hsl.l := rfl
  rw [go, gh]
  refine ⟨rfl, rfl, fromOklch_oklch_l _ _ _, fromOklch_oklch_h _ _ _, ?_, ?_, rfl, rfl, ?_, ?_,
    ?_, ?_⟩
  · rw [fromOklch_oklch_h]
    exact normalizeHue_compl base.oklch.h
  · intro hd
    rw [fromOklch_oklch, clampChroma_of_displayable hd]
  · rw [fromHsl_hsl]
  · rw [fromHsl_hsl]
  · rw [fromHsl_hsl]
  · rw [fromHsl_hsl]
    exact normalizeHue_compl base.hsl.h

/-- C5 counterexample: the harmony generator does not clamp `count` —
golden-ratio generation with `count = 201` (outside [3, 200]) produces
201 colors, while the clamped value 200 would produce 200, so the two do
not behave identically. -/
theorem c5_counterexample :
    (generateHarmony (fromOklch (6/10) (1/10) 0) ⟨.golden, some 201, some 30⟩ .oklch).length
      = 201 ∧
    (generateHarmony (fromOklch (6/10) (1/10) 0) ⟨.golden, some 200, some 30⟩ .oklch).length
      = 200 ∧
    (201 : ℕ) ≠ 200 := by
  refine ⟨?_, ?_, by norm_num⟩ <;>
  · simp only [generateHarmony, generateHarmonyOklch, Option.getD]
    rw [List.length_map, List.length_range]

/-- C5 amended: the harmony generator performs no clamping at all: it
uses `count` and `spread` exactly as supplied (golden-ratio emits exactly
`count` colors for any `count`, and analogous offsets hues by exactly
`±spread` and `±2·spread` for any `spread`).  The [3,200] and [5,90]
ranges are enforced by the UI input handlers before the generator is
called, not by the generator. -/
theorem c5_no_clamp_amended (base : ColorResult) (count : ℕ) (spread : ℚ)
    (cs : ColorSpace) :
    (generateHarmony base ⟨.golden, some count, some spread⟩ cs).length = count ∧
    ((generateHarmony base ⟨.analogous, some count, some spread⟩ .oklch).map
      (fun c => c.oklch.h))
      = [normalizeHue (base.oklch.h - spread * 2), normalizeHue (base.oklch.h - spread),
         base.oklch.h, normalizeHue (base.oklch.h + spread),
         normalizeHue (base.oklch.h + spread * 2)] ∧
    ((generateHarmony base ⟨.analogous, some count, some spread⟩ .hsl).map
      (fun c => c.hsl.h))
      = [normalizeHue (base.hsl.h - spread * 2), normalizeHue (base.hsl.h - spread),
         base.hsl.h, normalizeHue (base.hsl.h + spread),
         normalizeHue (base.hsl.h + spread * 2)] := by
  refine ⟨?_, ?_, ?_⟩
  · cases cs <;>
    · simp only [generateHarmony, generateHarmonyOklch, generateHarmonyHsl, Option.getD]
      rw [List.length_map, List.length_range]
  · simp only [generateHarmony, generateHarmonyOklch, Option.getD, List.map]
    rw [fromOklch_oklch_h, fromOklch_oklch_h, fromOklch_oklch_h, fromOklch_oklch_h]
  · simp only [generateHarmony, generateHarmonyHsl, Option.getD, List.map]
    rw [fromHsl_hsl, fromHsl_hsl, fromHsl_hsl, fromHsl_hsl]

/-- Hue field a generator writes for the given color space: the OKLCH hue
or the HSL hue of the produced `ColorResult`. -/
def storedHue (cs : ColorSpace) (cr : ColorResult) : ℚ :=
  match cs with
  | .oklch => cr.oklch.h
  | .hsl => cr.hsl.h

theorem randLoopIdx_mem (f : ℕ → ℚ → ℚ × ColorResult) (P : ColorResult → Prop)
    (hf : ∀ i s, P (f i s).2) :
    ∀ i n s cr, cr ∈ randLoopIdx f i n s → P cr := by
  intro i n
  induction n generalizing i with
  | zero =>
    intro s cr hm
    simp [randLoopIdx] at hm
  | succ n ih =>
    intro s cr hm
    rw [randLoopIdx] at hm
    rcases List.mem_cons.mp hm with hm | hm
    · exact hm ▸ hf i s
    · exact ih (i + 1) _ _ hm

/-- C6: with an integer seed supplied, `generateColorful` is a function
of the configuration and color space alone: two calls with the same
configuration and color space return identical color lists, whatever the
ambient clock value (the `Date.now()` fallback) of each call, for every
model of `Math.sin`. -/
theorem c6_seeded_deterministic (sinQ : ℚ → ℚ) (cfg : ColorfulConfig)
    (cs : ColorSpace) (s : ℚ) (now₁ now₂ : ℚ) (hseed : cfg.seed = some s) :
    generateColorful sinQ cfg cs now₁ = generateColorful sinQ cfg cs now₂ := by
  simp only [generateColorful, hseed, Option.getD_some]

/-- Witness for C6 at a concrete seeded configuration and two different
clock values. -/
theorem c6_seeded_deterministic_witness :
    generateColorful (fun x => x) ⟨.randomVibrant, 2, some 42, none, none, none, none⟩
        .oklch 0
      = generateColorful (fun x => x) ⟨.randomVibrant, 2, some 42, none, none, none, none⟩
        .oklch 999 :=
  c6_seeded_deterministic (fun x => x) ⟨.randomVibrant, 2, some 42, none, none, none, none⟩
    .oklch 42 0 999 rfl

/-- C7 amended: every color produced by the cool method has its generated
hue in [120°, 300°): the hue is drawn as `120 + random() * 180` with the
PRNG's fractional output in [0, 1), for every model of `Math.sin`, every
seed state, count, configuration and color space. -/
theorem c7_cool_hue_range_amended (sinQ : ℚ → ℚ) (count : ℕ) (s₀ : ℚ)
    (cfg : ColorfulConfig) (cs : ColorSpace) (cr : ColorResult)
    (hmem : cr ∈ generateRandomCool sinQ count s₀ cfg cs) :
    120 ≤ storedHue cs cr ∧ storedHue cs cr < 300 := by
  refine randLoopIdx_mem _ (fun cr => 120 ≤ storedHue cs cr ∧ storedHue cs cr < 300)
    (fun i s => ?_) 0 count s₀ cr hmem
  have h₀ := seededNext_nonneg sinQ s
  have h₁ := seededNext_lt_one sinQ s
  cases cs with
  | oklch =>
    dsimp only [storedHue]
    rw [fromOklch_oklch_h]
    constructor <;> nlinarith
  | hsl =>
    dsimp only [storedHue]
    rw [fromHsl_hsl]
    dsimp only
    constructor <;> nlinarith

/-- Concrete sine model for the C7 witness: the constant map to 0, whose
PRNG stream draws 0 forever. -/
def sinQzero : ℚ → ℚ := fun _ => 0

/-- Concrete cool configuration for the C7 theorems: one color, seed 1,
fixed lightness and chroma. -/
def coolCfg : ColorfulConfig := ⟨.randomCool, 1, some 1, some (1/2), some (1/10), none, none⟩

theorem coolZero_ne_nil : generateRandomCool sinQzero 1 0 coolCfg .oklch ≠ [] := by
  simp [generateRandomCool, randLoopIdx]

/-- Witness for C7 amended at the zero sine model. -/
theorem c7_cool_hue_range_amended_witness :
    120 ≤ storedHue .oklch ((generateRandomCool sinQzero 1 0 coolCfg .oklch).head
        coolZero_ne_nil) ∧
      storedHue .oklch ((generateRandomCool sinQzero 1 0 coolCfg .oklch).head
        coolZero_ne_nil) < 300 :=
  c7_cool_hue_range_amended sinQzero 1 0 coolCfg .oklch _
    (List.head_mem coolZero_ne_nil)

/-- Concrete sine model for the C7 counterexample: the constant map to
9/100000, whose PRNG stream draws 9/10 forever. -/
def sinQnine : ℚ → ℚ := fun _ => 9/100000

/-- C7 counterexample: under the sine model drawing 9/10, the cool method
with seed 1 produces a color with generated hue 282°, which lies outside
the claimed closed interval [120°, 280°] (the code draws from
`120 + random() * 180`, reaching up to but excluding 300°). -/
theorem c7_counterexample :
    ((generateColorful sinQnine coolCfg .oklch 0).map fun c => c.oklch.h) = [282] ∧
      ¬ ((282 : ℚ) ≤ 280) := by
  constructor
  · show ((generateRandomCool sinQnine 1 1 coolCfg .oklch).map fun c => c.oklch.h) = [282]
    simp only [generateRandomCool, randLoopIdx, coolCfg, drawOr, List.map,
      fromOklch_oklch_h]
    norm_num [seededNext, sinQnine, ratFloor]
  · norm_num

/-! ### Lemmas for the linear interpolation claim -/

theorem lerp_zero (a b : ℚ) : lerp a b 0 = a := by
  rw [lerp]
  ring

theorem lerp_one (a b : ℚ) : lerp a b 1 = b := by
  rw [lerp]
  ring

theorem jsMod_int_shift_eq (x : ℚ) (k : ℤ) (hx : 0 ≤ x) (hlt : x < 360)
    (hk : 0 ≤ x + 360 * k) : jsMod (x + 360 * k) 360 = x := by
  rw [jsMod_of_nonneg _ hk (by norm_num : (0:ℚ) < 360)]
  have harg : (x + 360 * k) / 360 = x / 360 + (k : ℚ) := by
    field_simp
    ring
  rw [harg, Int.fract_add_int, Int.fract_eq_self.mpr
    ⟨by positivity, by rw [div_lt_one (by norm_num : (0:ℚ) < 360)]; exact hlt⟩,
    mul_comm, div_mul_cancel₀ x (by norm_num : (360:ℚ) ≠ 0)]

theorem lerpHue_zero (h₁ h₂ : ℚ) (h₁n : 0 ≤ h₁) (h₁lt : h₁ < 360) :
    lerpHue h₁ h₂ 0 = h₁ := by
  rw [lerpHue]
  have : h₁ + (if (if h₂ - h₁ > 180 then h₂ - h₁ - 360 else h₂ - h₁) < -180
      then (if h₂ - h₁ > 180 then h₂ - h₁ - 360 else h₂ - h₁) + 360
      else (if h₂ - h₁ > 180 then h₂ - h₁ - 360 else h₂ - h₁)) * 0 + 360
      = h₁ + 360 * ((1 : ℤ) : ℚ) := by
    push_cast
    ring
  rw [this, jsMod_int_shift_eq h₁ 1 h₁n h₁lt (by push_cast; linarith)]

theorem lerpHue_one (h₁ h₂ : ℚ) (h₂n : 0 ≤ h₂) (h₂lt : h₂ < 360) :
    lerpHue h₁ h₂ 1 = h₂ := by
  rw [lerpHue]
  split_ifs with hgt hlt hlt
  · linarith
  · have : h₁ + (h₂ - h₁ - 360) * 1 + 360 = h₂ + 360 * ((0 : ℤ) : ℚ) := by
      push_cast
      ring
    rw [this, jsMod_int_shift_eq h₂ 0 h₂n h₂lt (by push_cast; linarith)]
  · have : h₁ + (h₂ - h₁ + 360) * 1 + 360 = h₂ + 360 * ((2 : ℤ) : ℚ) := by
      push_cast
      ring
    rw [this, jsMod_int_shift_eq h₂ 2 h₂n h₂lt (by push_cast; linarith)]
  · have : h₁ + (h₂ - h₁) * 1 + 360 = h₂ + 360 * ((1 : ℤ) : ℚ) := by
      push_cast
      ring
    rw [this, jsMod_int_shift_eq h₂ 1 h₂n h₂lt (by push_cast; linarith)]

/-- Well-formedness invariant of a `ColorResult` (spec §3: all stored
representations describe the same sRGB-clamped color): regenerating the
color from its stored coordinates in the given color space reproduces it
exactly, and the stored hue is already normalized.  Every color built by
`parseColor`, `fromOklch` or `fromHsl` satisfies it in the respective
space. -/
def regenerates (cs : ColorSpace) (c : ColorResult) : Prop :=
  match cs with
  | .oklch => fromOklch c.oklch.l c.oklch.c c.oklch.h = c ∧ 0 ≤ c.oklch.h ∧ c.oklch.h < 360
  | .hsl => fromHsl c.hsl.h c.hsl.s c.hsl.l = c ∧ 0 ≤ c.hsl.h ∧ c.hsl.h < 360

theorem ratFloor_zero : ratFloor 0 = 0 := rfl

theorem interpColorAt_zero (colors : List ColorResult) (steps : ℕ) (cs : ColorSpace)
    (hreg : regenerates cs (colors.getD 0 defaultCR)) :
    interpColorAt colors steps cs 0 = colors.getD 0 defaultCR := by
  cases cs with
  | oklch =>
    rcases hreg with ⟨hfix, hn₂, hlt⟩
    simp only [interpColorAt, Nat.cast_zero, zero_div, zero_mul, ratFloor_zero,
      Int.toNat_zero, Nat.zero_min, sub_zero, zero_add]
    rw [lerp_zero, lerp_zero, lerpHue_zero _ _ hn₂ hlt]
    exact hfix
  | hsl =>
    rcases hreg with ⟨hfix, hn₂, hlt⟩
    simp only [interpColorAt, Nat.cast_zero, zero_div, zero_mul, ratFloor_zero,
      Int.toNat_zero, Nat.zero_min, sub_zero, zero_add]
    rw [lerp_zero, lerp_zero, lerpHue_zero _ _ hn₂ hlt]
    exact hfix

theorem interpColorAt_last (colors : List ColorResult) (steps : ℕ) (cs : ColorSpace)
    (hn : 2 ≤ colors.length) (hs : 2 ≤ steps)
    (hreg : regenerates cs (colors.getD (colors.length - 1) defaultCR)) :
    interpColorAt colors steps cs (steps - 1) = colors.getD (colors.length - 1) defaultCR := by
  have hne : ((steps : ℚ) - 1) ≠ 0 := by
    have : (2 : ℚ) ≤ (steps : ℚ) := by exact_mod_cast hs
    linarith
  have ht : ((steps - 1 : ℕ) : ℚ) / ((steps : ℚ) - 1) * ((colors.length - 1 : ℕ) : ℚ)
      = ((colors.length - 1 : ℕ) : ℚ) := by
    rw [Nat.cast_sub (by omega : 1 ≤ steps)]
    push_cast
    field_simp
  have hfloor : (ratFloor ((colors.length - 1 : ℕ) : ℚ)).toNat = colors.length - 1 := by
    rw [ratFloor_eq, Int.floor_natCast, Int.toNat_natCast]
  have hmin : min (colors.length - 1) (colors.length - 2) = colors.length - 2 :=
    Nat.min_eq_right (by omega)
  have hsucc : colors.length - 2 + 1 = colors.length - 1 := by omega
  have hlocal : ((colors.length - 1 : ℕ) : ℚ) - ((colors.length - 2 : ℕ) : ℚ) = 1 := by
    rw [Nat.cast_sub (by omega : 1 ≤ colors.length),
      Nat.cast_sub (by omega : 2 ≤ colors.length)]
    push_cast
    ring
  cases cs with
  | oklch =>
    rcases hreg with ⟨hfix, hn₂, hlt⟩
    simp only [interpColorAt, ht, hfloor, hmin, hsucc, hlocal]
    rw [lerp_one, lerp_one, lerpHue_one _ _ hn₂ hlt]
    exact hfix
  | hsl =>
    rcases hreg with ⟨hfix, hn₂, hlt⟩
    simp only [interpColorAt, ht, hfloor, hmin, hsucc, hlocal]
    rw [lerp_one, lerp_one, lerpHue_one _ _ hn₂ hlt]
    exact hfix

/-- C3: for at least two control points and `steps ≥ 2`, and well-formed
first and last control points (the `ColorResult` invariant of spec §3),
`interpolateLinear` returns exactly `steps` colors whose first element is
the first control point and whose last element is the last control
point, in either color space. -/
theorem c3_interpolateLinear_endpoints (colors : List ColorResult) (steps : ℕ)
    (cs : ColorSpace) (hn : 2 ≤ colors.length) (hs : 2 ≤ steps)
    (hfirst : regenerates cs (colors.getD 0 defaultCR))
    (hlast : regenerates cs (colors.getD (colors.length - 1) defaultCR)) :
    (interpolateLinear colors steps cs).length = steps ∧
    (interpolateLinear colors steps cs).getD 0 defaultCR = colors.getD 0 defaultCR ∧
    (interpolateLinear colors steps cs).getD (steps - 1) defaultCR
      = colors.getD (colors.length - 1) defaultCR := by
  have hmain : interpolateLinear colors steps cs
      = (List.range steps).map (interpColorAt colors steps cs) := by
    rw [interpolateLinear, if_neg (by omega), if_neg (by omega), if_neg (by omega)]
  rw [hmain]
  refine ⟨by rw [List.length_map, List.length_range], ?_, ?_⟩
  · rw [List.getD_eq_getElem?_getD, List.getElem?_map,
      List.getElem?_range (by omega : 0 < steps)]
    show interpColorAt colors steps cs 0 = _
    exact interpColorAt_zero colors steps cs hfirst
  · rw [List.getD_eq_getElem?_getD, List.getElem?_map,
      List.getElem?_range (by omega : steps - 1 < steps)]
    show interpColorAt colors steps cs (steps - 1) = _
    exact interpColorAt_last colors steps cs hn hs hlast

/-- Concrete control points for the C3 witness. -/
def c3colors : List ColorResult := [fromHsl 10 50 50, fromHsl 200 40 60]

theorem c3colors_first : regenerates .hsl (c3colors.getD 0 defaultCR) := by
  refine ⟨rfl, by norm_num [c3colors, fromHsl_hsl], by norm_num [c3colors, fromHsl_hsl]⟩

theorem c3colors_last : regenerates .hsl (c3colors.getD (c3colors.length - 1) defaultCR) := by
  refine ⟨rfl, by norm_num [c3colors, fromHsl_hsl], by norm_num [c3colors, fromHsl_hsl]⟩

/-- Witness for C3 at two concrete HSL control points and three steps. -/
theorem c3_interpolateLinear_endpoints_witness :
    (interpolateLinear c3colors 3 .hsl).length = 3 ∧
    (interpolateLinear c3colors 3 .hsl).getD 0 defaultCR = c3colors.getD 0 defaultCR ∧
    (interpolateLinear c3colors 3 .hsl).getD (3 - 1) defaultCR
      = c3colors.getD (c3colors.length - 1) defaultCR :=
  c3_interpolateLinear_endpoints c3colors 3 .hsl (by norm_num [c3colors]) (by norm_num)
    c3colors_first c3colors_last

/-! ### Lemmas for the extraction claims -/

theorem mem_insertByCount {x c : Cluster} {l : List Cluster} :
    x ∈ insertByCount c l ↔ x = c ∨ x ∈ l := by
  induction l with
  | nil => simp [insertByCount]
  | cons d rest ih =>
    rw [insertByCount]
    split_ifs
    · simp only [List.mem_cons]
    · simp only [List.mem_cons, ih]
      tauto

theorem pairwise_insertByCount (c : Cluster) (l : List Cluster)
    (hl : l.Pairwise (fun a b => b.count ≤ a.count)) :
    (insertByCount c l).Pairwise (fun a b => b.count ≤ a.count) := by
  induction l with
  | nil => simp [insertByCount]
  | cons d rest ih =>
    rw [insertByCount]
    rcases List.pairwise_cons.mp hl with ⟨hd, hrest⟩
    split_ifs with hdc
    · refine List.Pairwise.cons ?_ hl
      intro x hx
      rcases List.mem_cons.mp hx with rfl | hx
      · exact le_of_lt hdc
      · exact le_trans (hd x hx) (le_of_lt hdc)
    · refine List.Pairwise.cons ?_ (ih hrest)
      intro x hx
      rcases mem_insertByCount.mp hx with rfl | hx
      · exact not_lt.mp hdc
      · exact hd x hx

theorem sortByCountDesc_sorted (l : List Cluster) :
    (sortByCountDesc l).Pairwise (fun a b => b.count ≤ a.count) := by
  induction l with
  | nil => simp [sortByCountDesc]
  | cons c rest ih =>
    rw [sortByCountDesc]
    exact pairwise_insertByCount c _ ih

theorem mem_sortByCountDesc {x : Cluster} {l : List Cluster} :
    x ∈ sortByCountDesc l ↔ x ∈ l := by
  induction l with
  | nil => simp [sortByCountDesc]
  | cons c rest ih =>
    rw [sortByCountDesc, mem_insertByCount, ih, List.mem_cons]

theorem kMeans_counts_pos (rand : ℕ → ℚ) (pixels : List RGBpx) (k : ℕ) :
    ∀ c ∈ kMeansClustering rand pixels k, 0 < c.count := by
  intro c hc
  rw [kMeansClustering] at hc
  split_ifs at hc with h₁ h₂
  · simp at hc
  · rcases List.mem_map.mp hc with ⟨p, _, rfl⟩
    norm_num
  · simpa using (List.mem_filter.mp hc).2

theorem nearestIdxAux_lt (p : RGBpx) (n : ℕ) :
    ∀ (l : List RGBpx) (i : ℕ) (bd : Option ℚ) (best : ℕ), best < n →
      i + l.length ≤ n → nearestIdxAux p l i bd best < n := by
  intro l
  induction l with
  | nil =>
    intro i bd best hb _
    exact hb
  | cons c rest ih =>
    intro i bd best hb hr
    rw [nearestIdxAux]
    split_ifs
    · exact ih (i + 1) _ i (by simp at hr; omega) (by simp at hr ⊢; omega)
    · exact ih (i + 1) _ best hb (by simp at hr ⊢; omega)

theorem nearestIdx_lt (cents : List RGBpx) (p : RGBpx) (hne : cents ≠ []) :
    nearestIdx cents p < cents.length := by
  have hpos : 0 < cents.length := List.length_pos.mpr hne
  exact nearestIdxAux_lt p cents.length cents 0 none 0 hpos (by omega)

theorem sum_set_succ (l : List ℕ) (i : ℕ) (hi : i < l.length) :
    (l.set i (l.getD i 0 + 1)).sum = l.sum + 1 := by
  induction l generalizing i with
  | nil => simp at hi
  | cons a rest ih =>
    cases i with
    | zero =>
      show (((a :: rest).getD 0 0 + 1) :: rest).sum = (a :: rest).sum + 1
      rw [List.getD_cons_zero, List.sum_cons, List.sum_cons]
      omega
    | succ j =>
      have hj : j < rest.length := by simpa using hi
      show (a :: rest.set j (rest.getD j 0 + 1)).sum = (a :: rest).sum + 1
      rw [List.sum_cons, List.sum_cons, ih j hj]
      omega

theorem finalCounts_foldl_sum (cents : List RGBpx) (hne : cents ≠ []) :
    ∀ (pixels : List RGBpx) (counts : List ℕ), counts.length = cents.length →
      (pixels.foldl (fun counts p =>
        counts.set (nearestIdx cents p) (counts.getD (nearestIdx cents p) 0 + 1)) counts).sum
        = counts.sum + pixels.length := by
  intro pixels
  induction pixels with
  | nil =>
    intro counts _
    simp
  | cons p ps ih =>
    intro counts hlen
    have hidx : nearestIdx cents p < counts.length := by
      rw [hlen]
      exact nearestIdx_lt cents p hne
    rw [List.foldl_cons, ih _ (by rw [List.length_set]; exact hlen),
      sum_set_succ counts _ hidx, List.length_cons]
    omega

theorem finalCounts_foldl_length (cents : List RGBpx) :
    ∀ (pixels : List RGBpx) (counts : List ℕ),
      (pixels.foldl (fun counts p =>
        counts.set (nearestIdx cents p) (counts.getD (nearestIdx cents p) 0 + 1)) counts).length
        = counts.length := by
  intro pixels
  induction pixels with
  | nil =>
    intro counts
    rfl
  | cons p ps ih =>
    intro counts
    rw [List.foldl_cons, ih, List.length_set]

theorem finalCounts_sum (cents : List RGBpx) (pixels : List RGBpx) (hne : cents ≠ []) :
    (finalCounts cents pixels).sum = pixels.length := by
  have := finalCounts_foldl_sum cents hne pixels (List.replicate cents.length 0)
    (List.length_replicate _ _)
  rw [finalCounts, this, List.sum_replicate]
  simp

theorem finalCounts_length (cents : List RGBpx) (pixels : List RGBpx) :
    (finalCounts cents pixels).length = cents.length := by
  rw [finalCounts, finalCounts_foldl_length, List.length_replicate]

theorem seedLoop_length_ge (rand : ℕ → ℚ) (pixels : List RGBpx) (k : ℕ) :
    ∀ (fuel : ℕ) (cents : List RGBpx) (n : ℕ),
      cents.length ≤ (seedLoop rand pixels k fuel cents n).1.length := by
  intro fuel
  induction fuel with
  | zero =>
    intro cents n
    exact le_rfl
  | succ fuel ih =>
    intro cents n
    rw [seedLoop]
    split_ifs
    · dsimp only
      cases hp : pickIdx (List.map (minDistSq cents) pixels)
          (rand n * (List.map (minDistSq cents) pixels).sum) with
      | none => exact ih cents (n + 1)
      | some i =>
        calc cents.length ≤ (cents ++ [pixels.getD i ⟨0, 0, 0⟩]).length := by
              simp
          _ ≤ _ := ih _ (n + 1)
    · exact le_rfl

theorem lloydIter_length (pixels : List RGBpx) (k : ℕ) (cents : List RGBpx) :
    (lloydIter pixels k cents).length = cents.length := by
  rw [lloydIter, updateCentroids, List.length_map, List.length_range]

theorem lloydIterate_length (pixels : List RGBpx) (k : ℕ) (cents : List RGBpx) (m : ℕ) :
    ((lloydIter pixels k)^[m] cents).length = cents.length := by
  induction m with
  | zero => rfl
  | succ m ih =>
    rw [Function.iterate_succ_apply', lloydIter_length, ih]

theorem sum_filter_pos_counts (l : List Cluster) :
    (((l.filter fun c => 0 < c.count).map Cluster.count)).sum = (l.map Cluster.count).sum := by
  induction l with
  | nil => rfl
  | cons c rest ih =>
    rw [List.filter_cons]
    by_cases hc : 0 < c.count
    · rw [if_pos (by simpa using hc), List.map_cons, List.sum_cons, List.map_cons,
        List.sum_cons, ih]
    · have hc0 : c.count = 0 := by omega
      rw [if_neg (by simpa using hc), ih, List.map_cons, List.sum_cons, hc0, zero_add]

/-- C9: for every pixel list, cluster count and random stream, the
extraction output's cluster member counts are non-increasing (the
clusters are sorted descending by member count), and every remaining
cluster is nonempty (empty clusters were dropped). -/
theorem c9_extraction_sorted (rand : ℕ → ℚ) (pixels : List RGBpx) (k : ℕ) :
    (extractionClusters rand pixels k).Pairwise (fun a b => b.count ≤ a.count) ∧
      ∀ c ∈ extractionClusters rand pixels k, 0 < c.count := by
  constructor
  · exact sortByCountDesc_sorted _
  · intro c hc
    exact kMeans_counts_pos rand pixels k c (mem_sortByCountDesc.mp hc)

/-- C10: for every pixel list and `k ≥ 1`, the member counts of the
clusters returned by `kMeansClustering` sum to the number of input
pixels — each pixel lands in exactly one cluster and dropping empty
clusters loses no pixel mass. -/
theorem c10_kmeans_mass (rand : ℕ → ℚ) (pixels : List RGBpx) (k : ℕ) (hk : 1 ≤ k) :
    ((kMeansClustering rand pixels k).map Cluster.count).sum = pixels.length := by
  rw [kMeansClustering]
  split_ifs with h₁ h₂
  · rw [h₁]
    rfl
  · rw [List.map_map]
    have : (Cluster.count ∘ fun p => Cluster.mk p 1) = fun _ => 1 := rfl
    rw [this, List.map_const', List.sum_replicate]
    simp
  · have hne : ((lloydIter pixels k)^[10]
        (seedLoop rand pixels k k [pixels.getD (ratFloor (rand 0 * (pixels.length : ℚ))).toNat
          ⟨0, 0, 0⟩] 1).1) ≠ [] := by
      have hseed := seedLoop_length_ge rand pixels k k
        [pixels.getD (ratFloor (rand 0 * (pixels.length : ℚ))).toNat ⟨0, 0, 0⟩] 1
      have hiter := lloydIterate_length pixels k
        (seedLoop rand pixels k k [pixels.getD (ratFloor (rand 0 * (pixels.length : ℚ))).toNat
          ⟨0, 0, 0⟩] 1).1 10
      intro hcon
      rw [hcon] at hiter
      simp only [List.length_nil, List.length_singleton] at hiter hseed
      omega
    set cents := (lloydIter pixels k)^[10]
      (seedLoop rand pixels k k [pixels.getD (ratFloor (rand 0 * (pixels.length : ℚ))).toNat
        ⟨0, 0, 0⟩] 1).1 with hcents
    rw [sum_filter_pos_counts, List.map_map]
    have hcomp : (Cluster.count ∘ fun pc : RGBpx × ℕ => Cluster.mk pc.1 pc.2)
        = Prod.snd := rfl
    rw [hcomp, List.map_snd_zip _ _ (by rw [finalCounts_length])]
    exact finalCounts_sum cents pixels hne

/-- Concrete random stream for the C10 witness. -/
def c10rand : ℕ → ℚ := fun _ => 1/2

/-- Concrete pixels for the C10 witness. -/
def c10pixels : List RGBpx := [⟨1, 2, 3⟩, ⟨200, 5, 5⟩, ⟨3, 3, 3⟩]

/-- Witness for C10 at three concrete pixels and `k = 1`. -/
theorem c10_kmeans_mass_witness :
    ((kMeansClustering c10rand c10pixels 1).map Cluster.count).sum = c10pixels.length :=
  c10_kmeans_mass c10rand c10pixels 1 (by norm_num)


/-! ### Evaluation of the parsed white and black constants (C8) -/

set_option maxRecDepth 8000 in
theorem wlab_eval :
    lrgbToOklab (srgbTransferInv (((255:ℤ) : ℚ) / 255)) (srgbTransferInv (((255:ℤ) : ℚ) / 255))
      (srgbTransferInv (((255:ℤ) : ℚ) / 255))
    = (999999993473/1000000000000, 41/500000000000, 37273/1000000000000) := by
  norm_num [lrgbToOklab, cbrtQ, cbrtIter, cbrtStep, truncPrec, ratFloor, srgbTransferInv]

set_option maxRecDepth 8000 in
theorem wok_eval :
    oklchOfLab (999999993473/1000000000000) (41/500000000000) (37273/1000000000000)
    = ⟨999999993473/1000000000000, 954159/1000000000000, 17980200144877/200000000000⟩ := by
  norm_num [oklchOfLab, sqrtQ, sqrtIter, sqrtStep, truncPrec, ratFloor, atan2DegQ, atanDegQ,
    normalizeHue, jsMod, jsTrunc, abs_of_pos, abs_of_nonneg]

theorem wdisp0 : displayableOklch ⟨999999993473/1000000000000, 954159/1000000000000, 17980200144877/200000000000⟩ = false := by
  norm_num [displayableOklch, oklchToLrgb, oklabToLrgb, cosdQ, sindQ, cosq, sinq,
    truncPrec, ratFloor, piQ, normalizeHue, jsMod, jsTrunc, decide_eq_true_eq]

theorem wdisp1 : displayableOklch ⟨999999993473/1000000000000, 954159/2000000000000, 17980200144877/200000000000⟩ = false := by
  norm_num [displayableOklch, oklchToLrgb, oklabToLrgb, cosdQ, sindQ, cosq, sinq,
    truncPrec, ratFloor, piQ, normalizeHue, jsMod, jsTrunc, decide_eq_true_eq]

theorem wdisp2 : displayableOklch ⟨999999993473/1000000000000, 954159/4000000000000, 17980200144877/200000000000⟩ = false := by
  norm_num [displayableOklch, oklchToLrgb, oklabToLrgb, cosdQ, sindQ, cosq, sinq,
    truncPrec, ratFloor, piQ, normalizeHue, jsMod, jsTrunc, decide_eq_true_eq]

theorem wdisp3 : displayableOklch ⟨999999993473/1000000000000, 954159/8000000000000, 17980200144877/200000000000⟩ = false := by
  norm_num [displayableOklch, oklchToLrgb, oklabToLrgb, cosdQ, sindQ, cosq, sinq,
    truncPrec, ratFloor, piQ, normalizeHue, jsMod, jsTrunc, decide_eq_true_eq]

theorem wdisp4 : displayableOklch ⟨999999993473/1000000000000, 954159/16000000000000, 17980200144877/200000000000⟩ = false := by
  norm_num [displayableOklch, oklchToLrgb, oklabToLrgb, cosdQ, sindQ, cosq, sinq,
    truncPrec, ratFloor, piQ, normalizeHue, jsMod, jsTrunc, decide_eq_true_eq]

theorem wdisp5 : displayableOklch ⟨999999993473/1000000000000, 954159/32000000000000, 17980200144877/200000000000⟩ = false := by
  norm_num [displayableOklch, oklchToLrgb, oklabToLrgb, cosdQ, sindQ, cosq, sinq,
    truncPrec, ratFloor, piQ, normalizeHue, jsMod, jsTrunc, decide_eq_true_eq]

theorem wdisp6 : displayableOklch ⟨999999993473/1000000000000, 954159/64000000000000, 17980200144877/200000000000⟩ = false := by
  norm_num [displayableOklch, oklchToLrgb, oklabToLrgb, cosdQ, sindQ, cosq, sinq,
    truncPrec, ratFloor, piQ, normalizeHue, jsMod, jsTrunc, decide_eq_true_eq]

theorem wdisp7 : displayableOklch ⟨999999993473/1000000000000, 954159/128000000000000, 17980200144877/200000000000⟩ = true := by
  norm_num [displayableOklch, oklchToLrgb, oklabToLrgb, cosdQ, sindQ, cosq, sinq,
    truncPrec, ratFloor, piQ, normalizeHue, jsMod, jsTrunc, decide_eq_true_eq]

theorem wdisp8 : displayableOklch ⟨999999993473/1000000000000, 2862477/256000000000000, 17980200144877/200000000000⟩ = false := by
  norm_num [displayableOklch, oklchToLrgb, oklabToLrgb, cosdQ, sindQ, cosq, sinq,
    truncPrec, ratFloor, piQ, normalizeHue, jsMod, jsTrunc, decide_eq_true_eq]

theorem wdisp9 : displayableOklch ⟨999999993473/1000000000000, 954159/102400000000000, 17980200144877/200000000000⟩ = false := by
  norm_num [displayableOklch, oklchToLrgb, oklabToLrgb, cosdQ, sindQ, cosq, sinq,
    truncPrec, ratFloor, piQ, normalizeHue, jsMod, jsTrunc, decide_eq_true_eq]

theorem wdisp10 : displayableOklch ⟨999999993473/1000000000000, 8587431/1024000000000000, 17980200144877/200000000000⟩ = false := by
  norm_num [displayableOklch, oklchToLrgb, oklabToLrgb, cosdQ, sindQ, cosq, sinq,
    truncPrec, ratFloor, piQ, normalizeHue, jsMod, jsTrunc, decide_eq_true_eq]

theorem wdisp11 : displayableOklch ⟨999999993473/1000000000000, 16220703/2048000000000000, 17980200144877/200000000000⟩ = true := by
  norm_num [displayableOklch, oklchToLrgb, oklabToLrgb, cosdQ, sindQ, cosq, sinq,
    truncPrec, ratFloor, piQ, normalizeHue, jsMod, jsTrunc, decide_eq_true_eq]

theorem wdisp12 : displayableOklch ⟨999999993473/1000000000000, 6679113/819200000000000, 17980200144877/200000000000⟩ = true := by
  norm_num [displayableOklch, oklchToLrgb, oklabToLrgb, cosdQ, sindQ, cosq, sinq,
    truncPrec, ratFloor, piQ, normalizeHue, jsMod, jsTrunc, decide_eq_true_eq]

theorem wbisect : bisectChroma (999999993473/1000000000000) (17980200144877/200000000000) 12 0 (954159/1000000000000) = 6679113/819200000000000 := by
  rw [show (12:ℕ) = 11+1 from rfl,
    bisectChroma_succ_false (999999993473/1000000000000) (17980200144877/200000000000) (0) (954159/1000000000000) (954159/2000000000000) 11 (by norm_num) wdisp1]
  rw [show (11:ℕ) = 10+1 from rfl,
    bisectChroma_succ_false (999999993473/1000000000000) (17980200144877/200000000000) (0) (954159/2000000000000) (954159/4000000000000) 10 (by norm_num) wdisp2]
  rw [show (10:ℕ) = 9+1 from rfl,
    bisectChroma_succ_false (999999993473/1000000000000) (17980200144877/200000000000) (0) (954159/4000000000000) (954159/8000000000000) 9 (by norm_num) wdisp3]
  rw [show (9:ℕ) = 8+1 from rfl,
    bisectChroma_succ_false (999999993473/1000000000000) (17980200144877/200000000000) (0) (954159/8000000000000) (954159/16000000000000) 8 (by norm_num) wdisp4]
  rw [show (8:ℕ) = 7+1 from rfl,
    bisectChroma_succ_false (999999993473/1000000000000) (17980200144877/200000000000) (0) (954159/16000000000000) (954159/32000000000000) 7 (by norm_num) wdisp5]
  rw [show (7:ℕ) = 6+1 from rfl,
    bisectChroma_succ_false (999999993473/1000000000000) (17980200144877/200000000000) (0) (954159/32000000000000) (954159/64000000000000) 6 (by norm_num) wdisp6]
  rw [show (6:ℕ) = 5+1 from rfl,
    bisectChroma_succ_true (999999993473/1000000000000) (17980200144877/200000000000) (0) (954159/64000000000000) (954159/128000000000000) 5 (by norm_num) wdisp7]
  rw [show (5:ℕ) = 4+1 from rfl,
    bisectChroma_succ_false (999999993473/1000000000000) (17980200144877/200000000000) (954159/128000000000000) (954159/64000000000000) (2862477/256000000000000) 4 (by norm_num) wdisp8]
  rw [show (4:ℕ) = 3+1 from rfl,
    bisectChroma_succ_false (999999993473/1000000000000) (17980200144877/200000000000) (954159/128000000000000) (2862477/256000000000000) (954159/102400000000000) 3 (by norm_num) wdisp9]
  rw [show (3:ℕ) = 2+1 from rfl,
    bisectChroma_succ_false (999999993473/1000000000000) (17980200144877/200000000000) (954159/128000000000000) (954159/102400000000000) (8587431/1024000000000000) 2 (by norm_num) wdisp10]
  rw [show (2:ℕ) = 1+1 from rfl,
    bisectChroma_succ_true (999999993473/1000000000000) (17980200144877/200000000000) (954159/128000000000000) (8587431/1024000000000000) (16220703/2048000000000000) 1 (by norm_num) wdisp11]
  rw [show (1:ℕ) = 0+1 from rfl,
    bisectChroma_succ_true (999999993473/1000000000000) (17980200144877/200000000000) (16220703/2048000000000000) (8587431/1024000000000000) (6679113/819200000000000) 0 (by norm_num) wdisp12]
  rfl

theorem wclamp : clampChroma ⟨999999993473/1000000000000, 954159/1000000000000, 17980200144877/200000000000⟩ = ⟨999999993473/1000000000000, 6679113/819200000000000, 17980200144877/200000000000⟩ := by
  rw [clampChroma, if_neg (by simp [wdisp0])]
  show OklchT.mk (999999993473/1000000000000) (bisectChroma (999999993473/1000000000000) (17980200144877/200000000000) 12 0 (954159/1000000000000)) (17980200144877/200000000000) = _
  rw [wbisect]

set_option maxRecDepth 8000 in
theorem wround : roundRgb (oklchToRgb01 ⟨999999993473/1000000000000, 6679113/819200000000000, 17980200144877/200000000000⟩) = ⟨255, 255, 255⟩ := by
  norm_num [roundRgb, oklchToRgb01, oklchToLrgb, oklabToLrgb, srgbTransfer, cosdQ, sindQ,
    cosq, sinq, truncPrec, ratFloor, piQ, normalizeHue, jsMod, jsTrunc, jsRound]

theorem white_rgb : whiteParsed.rgb = ⟨255, 255, 255⟩ := by
  have hp : parseHexColor "#FFFFFF" = some ⟨255, 255, 255⟩ := rfl
  rw [whiteParsed]
  simp only [parseColor, hp, Option.getD_some]
  rw [wlab_eval]
  dsimp only
  rw [wok_eval, wclamp]
  exact wround

set_option maxRecDepth 8000 in
set_option maxHeartbeats 1000000 in
theorem black_rgb : blackParsed.rgb = ⟨0, 0, 0⟩ := by
  have hp : parseHexColor "#000000" = some ⟨0, 0, 0⟩ := rfl
  rw [blackParsed]
  simp only [parseColor, hp, Option.getD_some]
  norm_num [lrgbToOklab, cbrtQ, cbrtIter, cbrtStep, sqrtQ, sqrtIter, sqrtStep, oklchOfLab,
    atan2DegQ, atanDegQ, clampChroma, displayableOklch, oklchToLrgb,
    oklchToRgb01, oklabToLrgb, cosdQ, sindQ, cosq, sinq, piQ, truncPrec, ratFloor,
    srgbTransfer, srgbTransferInv, normalizeHue, jsMod, jsTrunc, jsRound, roundRgb,
    decide_eq_true_eq, abs_of_pos, abs_of_nonneg]

theorem pc_black : parseColor "#000000" = some blackParsed := rfl

theorem pc_white : parseColor "#FFFFFF" = some whiteParsed := rfl

theorem sY_white (powQ : ℚ → ℚ → ℚ) (h1 : ∀ e : ℚ, powQ 1 e = 1) :
    sRGBtoY powQ ⟨255, 255, 255⟩ = 10000001/10^7 := by
  simp only [sRGBtoY]
  rw [show (((255:ℤ) : ℚ)) / 255 = 1 by norm_num, h1]
  norm_num

theorem sY_black (powQ : ℚ → ℚ → ℚ) (h0 : ∀ e : ℚ, 0 < e → powQ 0 e = 0) :
    sRGBtoY powQ ⟨0, 0, 0⟩ = 0 := by
  simp only [sRGBtoY]
  rw [show (((0:ℤ) : ℚ)) / 255 = 0 by norm_num, h0 (12/5) (by norm_num)]
  norm_num

theorem apca_self_zero (powQ : ℚ → ℚ → ℚ) (h0 : ∀ e : ℚ, 0 < e → powQ 0 e = 0) :
    getAPCAContrast powQ blackParsed blackParsed = 0 := by
  simp only [getAPCAContrast, black_rgb, sY_black powQ h0, APCAcontrast]
  rw [if_neg (by norm_num), if_pos]
  · norm_num
  · rw [max_self, h0 (65/100) (by norm_num), h0 (62/100) (by norm_num)]
    norm_num

theorem apca_white_on_black (powQ : ℚ → ℚ → ℚ) (h0 : ∀ e : ℚ, 0 < e → powQ 0 e = 0)
    (h1 : ∀ e : ℚ, powQ 1 e = 1)
    (hb62 : 1 ≤ powQ (10000001/10^7) (62/100)) :
    getAPCAContrast powQ whiteParsed blackParsed ≤ -111 := by
  simp only [getAPCAContrast, white_rgb, black_rgb, sY_white powQ h1, sY_black powQ h0,
    APCAcontrast]
  have hm₁ : max (0:ℚ) (10000001/10^7) = 10000001/10^7 := by norm_num
  have hm₀ : max (0:ℚ) 0 = 0 := max_self 0
  rw [hm₁, hm₀, if_neg (by norm_num), h0 (65/100) (by norm_num),
    if_neg (by push_neg; nlinarith)]
  nlinarith

theorem apca_white_on_white (powQ : ℚ → ℚ → ℚ)
    (hb62 : 1 ≤ powQ (10000001/10^7) (62/100) ∧ powQ (10000001/10^7) (62/100) ≤ 10000001/10^7)
    (hb65 : 1 ≤ powQ (10000001/10^7) (65/100) ∧ powQ (10000001/10^7) (65/100) ≤ 10000001/10^7)
    (h1 : ∀ e : ℚ, powQ 1 e = 1) :
    getAPCAContrast powQ whiteParsed whiteParsed = 0 := by
  simp only [getAPCAContrast, white_rgb, sY_white powQ h1, APCAcontrast]
  have hm₁ : max (0:ℚ) (10000001/10^7) = 10000001/10^7 := by norm_num
  rw [hm₁, if_neg (by norm_num), if_pos (by nlinarith [hb62.1, hb62.2, hb65.1, hb65.2])]
  norm_num

theorem apca_black_on_white (powQ : ℚ → ℚ → ℚ) (h0 : ∀ e : ℚ, 0 < e → powQ 0 e = 0)
    (h1 : ∀ e : ℚ, powQ 1 e = 1)
    (hb56 : 1 ≤ powQ (10000001/10^7) (56/100)) :
    111 ≤ getAPCAContrast powQ blackParsed whiteParsed := by
  simp only [getAPCAContrast, white_rgb, black_rgb, sY_white powQ h1, sY_black powQ h0,
    APCAcontrast]
  have hm₁ : max (0:ℚ) (10000001/10^7) = 10000001/10^7 := by norm_num
  have hm₀ : max (0:ℚ) 0 = 0 := max_self 0
  rw [hm₁, hm₀, if_pos (by norm_num), h0 (57/100) (by norm_num),
    if_neg (by push_neg; nlinarith)]
  nlinarith

/-- C8: the best-text-color choice made by comparing APCA contrast
magnitudes returns white for a pure black background and black for a pure
white background, for every model of `Math.pow` satisfying `PowModel`. -/
theorem c8_best_text_color (powQ : ℚ → ℚ → ℚ) (hpow : PowModel powQ) :
    getContrastTextColorHex powQ "#000000" = "#FFFFFF" ∧
      getContrastTextColorHex powQ "#FFFFFF" = "#000000" := by
  obtain ⟨h0, h1, hle⟩ := hpow
  have hy1 : (1:ℚ) ≤ 10000001/10^7 := by norm_num
  have hb62 := hle (10000001/10^7) (62/100) hy1 (by norm_num) (by norm_num)
  have hb65 := hle (10000001/10^7) (65/100) hy1 (by norm_num) (by norm_num)
  have hb56 := hle (10000001/10^7) (56/100) hy1 (by norm_num) (by norm_num)
  constructor
  · simp only [getContrastTextColorHex, pc_black, getContrastTextColorOf]
    rw [if_pos]
    have hw := apca_white_on_black powQ h0 h1 hb62.1
    have hb := apca_self_zero powQ h0
    rw [hb, abs_zero, abs_of_nonpos (by linarith)]
    linarith
  · simp only [getContrastTextColorHex, pc_white, getContrastTextColorOf]
    rw [if_neg]
    have hw := apca_white_on_white powQ hb62 hb65 h1
    have hb := apca_black_on_white powQ h0 h1 hb56.1
    rw [hw, abs_zero, abs_of_nonneg (by linarith)]
    push_neg
    linarith

/-- Witness for C8 at the concrete `PowModel` instance `max 0 x`. -/
theorem c8_best_text_color_witness :
    getContrastTextColorHex (fun x _ => max 0 x) "#000000" = "#FFFFFF" ∧
      getContrastTextColorHex (fun x _ => max 0 x) "#FFFFFF" = "#000000" :=
  c8_best_text_color (fun x _ => max 0 x) powModel_max

end Palette
